import Mathlib

/-!
Verification of the QAAP orchestration layer (kcri.qaap): the per-service
Task/Execution state machine in `shims/base.py`, the blackboard accessors in
`data.py`, and the dependency-table consistency check in `workflow.py`.

Python values are embedded as the inductive `PyVal`; the hierarchical
blackboard of the external `pico.workflow.blackboard` module is modelled from
the spec (it is not part of this repository).  Code that can raise is embedded
in `Except String`.
-/

set_option autoImplicit false

/-- Embedding of the Python values that flow through the QAAP blackboard:
`None`, booleans, integers, strings, lists, tuples and (string-keyed) dicts.
Dicts are association lists in insertion order, matching Python dict order. -/
inductive PyVal where
  | none
  | bool (b : Bool)
  | int (n : Int)
  | str (s : String)
  | list (xs : List PyVal)
  | tuple (xs : List PyVal)
  | dict (kvs : List (String × PyVal))
  deriving Repr, Inhabited

/-- Python truthiness (`bool(o)`) for the embedded values: `None`, `False`,
`0`, `''` and empty containers are falsy. -/
def pyFalsy : PyVal → Bool
  | .none => true
  | .bool b => !b
  | .int n => n == 0
  | .str s => s == ""
  | .list xs => xs.isEmpty
  | .tuple xs => xs.isEmpty
  | .dict kvs => kvs.isEmpty

/-- `o is None` (Python identity test with `None`). -/
def PyVal.isNone : PyVal → Bool
  | .none => true
  | _ => false

/-- Equality test adequate for falsy values (the falsy values are `None`,
`False`, `0`, `''` and the three empty containers, so no recursion is
needed): for falsy `o`, `pyEqF o r = true` exactly when `r` equals `o`. -/
def pyEqF : PyVal → PyVal → Bool
  | .none, .none => true
  | .bool a, .bool b => a == b
  | .int a, .int b => a == b
  | .str a, .str b => a == b
  | .list [], .list [] => true
  | .tuple [], .tuple [] => true
  | .dict [], .dict [] => true
  | _, _ => false

/-- `.ok` or `.error`, as a Boolean. -/
def exOk {α : Type} : Except String α → Bool
  | .ok _ => true
  | .error _ => false

/-- Helper for `pathSegs`: split a character list on `'/'`. -/
def splitSegsAux : List Char → List Char → List String
  | [], acc => [String.mk acc.reverse]
  | c :: cs, acc =>
      if c = '/' then String.mk acc.reverse :: splitSegsAux cs []
      else splitSegsAux cs (c :: acc)

/-- Split a slash-delimited blackboard path into its segments
(`"a/b/c"` becomes `["a", "b", "c"]`, as Python `split('/')`). -/
def pathSegs (p : String) : List String := splitSegsAux p.data []

/-- Association-list lookup (first match), as Python dict lookup. -/
def kvFind : List (String × PyVal) → String → Option PyVal
  | [], _ => Option.none
  | (k', v) :: rest, k => if k' = k then some v else kvFind rest k

/-- Association-list update: an existing key keeps its position, a new key is
appended at the end, matching Python dict insertion-order semantics. -/
def kvUpd : List (String × PyVal) → String → PyVal → List (String × PyVal)
  | [], k, v => [(k, v)]
  | (k', v') :: rest, k, v =>
      if k' = k then (k, v) :: rest else (k', v') :: kvUpd rest k v

/-- Modelled from the spec: the hierarchical blackboard of
`pico.workflow.blackboard` (not in this repository) maps slash-delimited
paths to values; `bbGet` descends along the path from a root value. -/
def bbGet : PyVal → List String → Option PyVal
  | v, [] => some v
  | .dict kvs, k :: ks =>
      match kvFind kvs k with
      | some v => bbGet v ks
      | Option.none => Option.none
  | _, _ :: _ => Option.none

/-- Modelled from the spec: blackboard `put` overwrites the value at a
slash-delimited path, creating intermediate maps as needed. -/
def bbPut : PyVal → List String → PyVal → PyVal
  | _, [], v => v
  | .dict kvs, k :: ks, v =>
      .dict (kvUpd kvs k (bbPut ((kvFind kvs k).getD (.dict [])) ks v))
  | _, k :: ks, v => .dict [(k, bbPut (.dict []) ks v)]

/-- Modelled from the spec: the blackboard is a tree of values rooted in a
dict (`pico.workflow.blackboard.Blackboard` is not in this repository). -/
structure Blackboard where
  root : PyVal
  deriving Repr, Inhabited

/-- The empty blackboard. -/
def Blackboard.empty : Blackboard := ⟨.dict []⟩

/-- Modelled from the spec: `get(path, default)` returns the value at the
slash-delimited path, or `default` when the path is absent. -/
def Blackboard.get (bb : Blackboard) (path : String) (default : PyVal) : PyVal :=
  (bbGet bb.root (pathSegs path)).getD default

/-- The value at `path`, or `Option.none` when absent (used to state claims
about presence/absence without conflating with a stored Python `None`). -/
def Blackboard.getOpt (bb : Blackboard) (path : String) : Option PyVal :=
  bbGet bb.root (pathSegs path)

/-- Modelled from the spec: `put(path, value)` overwrites. -/
def Blackboard.put (bb : Blackboard) (path : String) (v : PyVal) : Blackboard :=
  ⟨bbPut bb.root (pathSegs path) v⟩

/-- Modelled from the spec: `append_to(path, value)` lazily creates a list at
`path` and appends; appending a list extends the stored list element-wise
(the source comments that `append_to` "deals with lists"). -/
def Blackboard.append_to (bb : Blackboard) (path : String) (v : PyVal) : Blackboard :=
  let cur := bb.getOpt path
  let new :=
    match cur with
    | some (.list xs) =>
        match v with
        | .list vs => PyVal.list (xs ++ vs)
        | _ => PyVal.list (xs ++ [v])
    | _ =>
        match v with
        | .list vs => PyVal.list vs
        | _ => PyVal.list [v]
  bb.put path new

/-- The list currently stored at `path`, or `[]` when the value there is
absent or not a list; `append_to` extends exactly this list. -/
def bbListAt (bb : Blackboard) (path : String) : List PyVal :=
  match bb.getOpt path with
  | some (.list xs) => xs
  | _ => []

/-! ### POSIX path helpers (`os.path`, external library used by `data.py`) -/

/-- `os.path.join(a, b)` for POSIX paths: an absolute second argument
replaces the first, otherwise the parts are joined with a separator. -/
def os_path_join (a b : String) : String :=
  if b.data.head? = some '/' then b
  else if a = "" || a.data.getLast? = some '/' then a ++ b
  else a ++ "/" ++ b

/-- Helper for `os_path_normpath`: fold path components, dropping `""` and
`"."` and resolving `".."` as CPython `posixpath.normpath` does (the
accumulator holds the kept components in reverse). -/
def normComps (isAbs : Bool) : List String → List String → List String
  | acc, [] => acc.reverse
  | acc, c :: cs =>
      if c = "" || c = "." then normComps isAbs acc cs
      else if c ≠ ".." || (!isAbs && acc.isEmpty) || acc.head? = some ".." then
        normComps isAbs (c :: acc) cs
      else
        match acc with
        | [] => normComps isAbs [] cs
        | _ :: rest => normComps isAbs rest cs

/-- `'/'.join(components)`, as used by `posixpath.normpath`. -/
def joinSlash : List String → String
  | [] => ""
  | [c] => c
  | c :: cs => c ++ "/" ++ joinSlash cs

/-- `os.path.normpath` for POSIX paths (CPython's preserved-double-leading-
slash corner is not modelled; no QAAP path starts with `//`). -/
def os_path_normpath (p : String) : String :=
  let isAbs := p.data.head? = some '/'
  let comps := normComps isAbs [] (pathSegs p)
  let q := joinSlash comps
  let q := if isAbs then "/" ++ q else q
  if q = "" then "." else q

/-- `os.path.abspath(p)` relative to a current working directory `cwd`:
join with `cwd` unless already absolute, then normalise. -/
def os_path_abspath (cwd p : String) : String :=
  if p.data.head? = some '/' then os_path_normpath p
  else os_path_normpath (os_path_join cwd p)

/-! ### `kcri.qaap.data.QAAPBlackboard` -/

/-- `QAAPBlackboard.put_user_input` (data.py lines 51-52). -/
def QAAPBlackboard.put_user_input (bb : Blackboard) (param : String) (v : PyVal) : Blackboard :=
  bb.put ("qaap/user_inputs/" ++ param) v

/-- `QAAPBlackboard.get_user_input` (data.py lines 54-55): a plain blackboard
`get` with a default, no error handling of its own. -/
def QAAPBlackboard.get_user_input (bb : Blackboard) (param : String) (default : PyVal) : PyVal :=
  bb.get ("qaap/user_inputs/" ++ param) default

/-- `QAAPBlackboard.get_base_path` (data.py lines 79-84): the stored
`out_dir` user input, raising when it is unset (falsy). -/
def QAAPBlackboard.get_base_path (bb : Blackboard) : Except String PyVal :=
  let path := QAAPBlackboard.get_user_input bb "out_dir" .none
  if pyFalsy path then .error "base path (out_dir) is not set" else .ok path

/-- `str(type(o))` for the embedded values (used in the `_rel_rec` error). -/
def pyTypeName : PyVal → String
  | .none => "<class 'NoneType'>"
  | .bool _ => "<class 'bool'>"
  | .int _ => "<class 'int'>"
  | .str _ => "<class 'str'>"
  | .list _ => "<class 'list'>"
  | .tuple _ => "<class 'tuple'>"
  | .dict _ => "<class 'dict'>"

mutual

/-- `QAAPBlackboard._rel_rec` (data.py lines 204-211): falsy values are
returned unchanged; a string is replaced by `abspath(join(base, s))`; lists,
tuples and dicts recurse elementwise; any other value raises. -/
def rel_rec (base cwd : String) (o : PyVal) : Except String PyVal :=
  if pyFalsy o then .ok o
  else
    match o with
    | .str s => Except.ok (.str (os_path_abspath cwd (os_path_join base s)))
    | .list xs => (relSeq base cwd xs).map PyVal.list
    | .tuple xs => (relSeq base cwd xs).map PyVal.tuple
    | .dict kvs => (relKvs base cwd kvs).map PyVal.dict
    | o => Except.error ("missed case in _rel_rec: o is " ++ pyTypeName o)

/-- Elementwise `_rel_rec` over the items of a Python list or tuple, raising
at the first failing element as the Python comprehension does. -/
def relSeq (base cwd : String) : List PyVal → Except String (List PyVal)
  | [] => Except.ok []
  | x :: xs => do
      let y ← rel_rec base cwd x
      let ys ← relSeq base cwd xs
      Except.ok (y :: ys)

/-- `_rel_rec` over the values of a Python dict, keys unchanged. -/
def relKvs (base cwd : String) : List (String × PyVal) → Except String (List (String × PyVal))
  | [] => Except.ok []
  | (k, v) :: kvs => do
      let w ← rel_rec base cwd v
      let rest ← relKvs base cwd kvs
      Except.ok ((k, w) :: rest)

end

/-- `QAAPBlackboard.relativise` (data.py lines 213-214): `_rel_rec` against
the blackboard base path.  `get_base_path` raising propagates; a non-string
truthy base would be a Python `TypeError` inside `os.path.join`, embedded as
an error. -/
def QAAPBlackboard.relativise (bb : Blackboard) (cwd : String) (o : PyVal) : Except String PyVal := do
  match ← QAAPBlackboard.get_base_path bb with
  | .str base => rel_rec base cwd o
  | _ => Except.error "TypeError: join() argument must be str, not NoneType"

mutual

/-- A value that makes `_rel_rec` raise: a truthy value that is not a
string, list, tuple or dict (on the embedded values: `True` or a non-zero
integer), possibly nested inside containers at a position the recursion
reaches. -/
def hasBad (o : PyVal) : Bool :=
  if pyFalsy o then false
  else
    match o with
    | .str _ => false
    | .list xs => hasBadSeq xs
    | .tuple xs => hasBadSeq xs
    | .dict kvs => hasBadKvs kvs
    | _ => true

/-- `hasBad` over the items of a list or tuple. -/
def hasBadSeq : List PyVal → Bool
  | [] => false
  | x :: xs => hasBad x || hasBadSeq xs

/-- `hasBad` over the values of a dict. -/
def hasBadKvs : List (String × PyVal) → Bool
  | [] => false
  | (_, v) :: kvs => hasBad v || hasBadKvs kvs

end

mutual

/-- The claim's description of `relativise`, as a relation between input and
output (a second, spec-worded definition to compare with `rel_rec`): falsy
values are returned unchanged, a dict maps to a dict with the same keys, a
list to a list of the same length, a tuple to a tuple of the same length
(recursively so), and every contained truthy string `s` is replaced by the
absolute path `abspath(join(base, s))`. -/
def relSpecR (base cwd : String) (o r : PyVal) : Bool :=
  if pyFalsy o then pyEqF o r
  else
    match o, r with
    | .str s, .str u => u == os_path_abspath cwd (os_path_join base s)
    | .list xs, .list ys => relSpecSeq base cwd xs ys
    | .tuple xs, .tuple ys => relSpecSeq base cwd xs ys
    | .dict kvs, .dict kvs' => relSpecKvs base cwd kvs kvs'
    | _, _ => false

/-- `relSpecR` elementwise; forces equal lengths. -/
def relSpecSeq (base cwd : String) : List PyVal → List PyVal → Bool
  | [], [] => true
  | x :: xs, y :: ys => relSpecR base cwd x y && relSpecSeq base cwd xs ys
  | _, _ => false

/-- `relSpecR` over dict entries; forces the same keys in the same order. -/
def relSpecKvs (base cwd : String) : List (String × PyVal) → List (String × PyVal) → Bool
  | [], [] => true
  | (k, v) :: kvs, (k', w) :: kvs' =>
      k == k' && relSpecR base cwd v w && relSpecKvs base cwd kvs kvs'
  | _, _ => false

end

/-! ### `kcri.qaap.shims.base` — the Task / ServiceExecution state machine -/

/-- Modelled from the spec: the task states of `pico.workflow.executor.Task`
(§4.3; the picoline executor is not in this repository):
STARTED is entered on construction, COMPLETED and FAILED are terminal. -/
inductive TState where
  | started
  | completed
  | failed
  deriving DecidableEq, Repr

/-- Modelled from the spec: the `value` strings of the `Task.State` enum that
`_transition` writes into the `status` task-info field. -/
def TState.value : TState → String
  | .started => "STARTED"
  | .completed => "COMPLETED"
  | .failed => "FAILED"

/-- Modelled from the spec: the job states of `pico.jobcontrol.job.Job`
(§3; the picoline job controller is not in this repository). -/
inductive JState where
  | pending
  | running
  | completed
  | failed
  deriving DecidableEq, Repr

/-- One external job as observed by its parent task: scheduler-assigned
name, state and error text. -/
structure JobRec where
  name : String
  state : JState
  error : String
  deriving Repr

/-- `'services/%s/task_info/%s' % (sid, path)`: the blackboard path of a
task-info field of service `sid`. -/
def taskInfoPath (sid sub : String) : String := "services/" ++ sid ++ "/task_info/" ++ sub

/-- `'services/%s/errors' % sid`: the blackboard path of the error list of
service `sid`. -/
def errorsPath (sid : String) : String := "services/" ++ sid ++ "/errors"

/-- `'services/%s/results' % sid`: the blackboard path of the results of
service `sid`. -/
def resultsPath (sid : String) : String := "services/" ++ sid ++ "/results"

/-- The observable state of a `ServiceExecution` (shims/base.py): the
service id `sid`, the task state, the current error, and the shared
blackboard the execution writes through. -/
structure STask where
  sid : String
  state : TState
  error : Option String
  bb : Blackboard
  deriving Repr

/-- `ServiceExecution.get_task_info` (base.py lines 67-68); an absent path
reads back as Python `None`, embedded as `Option.none`. -/
def STask.get_task_info (t : STask) (path : String) : Option PyVal :=
  t.bb.getOpt (taskInfoPath t.sid path)

/-- `ServiceExecution.put_task_info` (base.py lines 70-72). -/
def STask.put_task_info (t : STask) (path : String) (v : PyVal) : STask :=
  { t with bb := t.bb.put (taskInfoPath t.sid path) v }

/-- `ServiceExecution.add_error` (base.py lines 82-84): append to the
service-level error list at `services/<sid>/errors`. -/
def STask.add_error (t : STask) (errmsg : PyVal) : STask :=
  { t with bb := t.bb.append_to (errorsPath t.sid) errmsg }

/-- `ServiceExecution.store_results` (base.py lines 94-96). -/
def STask.store_results (t : STask) (result : PyVal) : STask :=
  { t with bb := t.bb.put (resultsPath t.sid) result }

/-- The timestamp part of `ServiceExecution._transition` (base.py lines
107-114).  Wall-clock instants are embedded as integers, so
`isoformat`/`fromisoformat` become the `.int` constructor; reading a missing
or non-integer start time is the Python `TypeError` raised by
`datetime.fromisoformat`, embedded as an error.  On STARTED the start time
is written; on a terminal transition the duration and end time are written
from the recorded start time. -/
def STask.stampTimes (t : STask) (now : Int) (new_state : TState) : Except String STask :=
  if new_state = .started then
    .ok (t.put_task_info "time/start" (.int now))
  else
    match t.get_task_info "time/start" with
    | some (.int start) =>
        .ok ((t.put_task_info "time/duration" (.int (now - start))).put_task_info
          "time/end" (.int now))
    | _ => .error "TypeError: fromisoformat() argument must be str"

/-- The status/error tail of `_transition` (base.py lines 116-119): write
the `status` task-info field; on FAILED also append `self.error` to the
service error list. -/
def STask.stampStatus (t : STask) (new_state : TState) (error : Option String) : STask :=
  let t3 := t.put_task_info "status" (.str new_state.value)
  if new_state = .failed then
    t3.add_error (match error with | some e => .str e | Option.none => .none)
  else t3

/-- `ServiceExecution._transition` (base.py lines 100-121), assembled: the
superclass `Task._transition` (picoline, not in this repository) is
modelled from the spec as recording the new state and error on the task;
then the timestamps and the status/error fields are written. -/
def STask.transition (t : STask) (now : Int) (new_state : TState) (error : Option String) :
    Except String STask :=
  (STask.stampTimes { t with state := new_state, error := error } now new_state).map
    fun t2 => t2.stampStatus new_state error

/-- Modelled from the spec: `Task.done()` of the picoline executor
transitions to COMPLETED, dispatching to the overridden `_transition`. -/
def STask.done (t : STask) (now : Int) : Except String STask :=
  t.transition now .completed Option.none

/-- Modelled from the spec: `Task.fail(error)` of the picoline executor
transitions to FAILED carrying the (already `%`-formatted) error message and
returns the resulting state. -/
def STask.fail (t : STask) (now : Int) (error : String) : Except String STask :=
  t.transition now .failed (some error)

/-- `ServiceExecution.__init__` (base.py lines 35-46): record shim, version
and service name in the task info, then transition to STARTED.  The STARTED
branch of `transition` never raises, so the error fallback is unreachable. -/
def mkServiceExecution (svc_shim svc_version sid : String) (bb : Blackboard) (now : Int) : STask :=
  let t0 : STask := ⟨sid, .started, Option.none, bb⟩
  let t1 := ((t0.put_task_info "shim" (.str svc_shim)).put_task_info "version"
      (.str svc_version)).put_task_info "service" (.str sid)
  match t1.transition now .started Option.none with
  | .ok t => t
  | .error _ => t1

/-- The task has an integer start time on the blackboard, as every task
built by `mkServiceExecution` does; `_transition` to a terminal state reads
it back. -/
def STask.hasStart (t : STask) : Bool :=
  match t.get_task_info "time/start" with
  | some (.int _) => true
  | _ => false

/-- The service-level error list of the task, as stored on the blackboard
(empty when absent); `add_error` appends to exactly this list. -/
def STask.errList (t : STask) : List PyVal := bbListAt t.bb (errorsPath t.sid)

/-- `ServiceExecution.get_user_input` (base.py lines 137-142): return the
blackboard value for `param`, raising `UserException` ("required user input
is missing") when the result is `None` — unlike the underlying
`QAAPBlackboard.get_user_input`, which would return the `None` default. -/
def ServiceExecution.get_user_input (t : STask) (param : String) (default : PyVal) :
    Except String PyVal :=
  let ret := QAAPBlackboard.get_user_input t.bb param default
  if ret.isNone then .error ("required user input is missing: " ++ param) else .ok ret

/-- `ServiceExecution.report` (base.py lines 50-63) for a single-job task.
The service-specific `collect_output` is passed as a function from the task
and the job to the mutated task; concrete collectors such as
`FastQCExecution.collect_output` (FastQC.py lines 78-96) signal failure by
calling `self.fail`, which the caller observes through the task state. -/
def ServiceExecution.report (collect : STask → JobRec → STask) (t : STask) (job : JobRec)
    (now : Int) : Except String STask :=
  if t.state = .started then
    if job.state = .completed then
      let t' := collect t job
      if t'.state ≠ .failed then t'.done now else .ok t'
    else if job.state = .failed then
      t.fail now job.error
    else .ok t
  else .ok t

/-- The hook `collect_job` of a concrete multi-job shim, as a total
function: from the task, the results so far, the job and its userdata to the
mutated task, the mutated results, and the text of a raised exception when
the Python code would raise (mutations made before the raise are kept). -/
abbrev CollectJobFn := STask → PyVal → JobRec → PyVal → STask × PyVal × Option String

/-- The hook `cleanup_job` of a multi-job shim: mutated task plus the text
of a raised exception, if any. -/
abbrev CleanupJobFn := STask → JobRec → PyVal → STask × Option String

/-- The loop body of `MultiJobExecution.collect_results` (base.py lines
294-311): per job, invoke `collect_job` when the job COMPLETED (turning a
raised exception into `self.fail(...)`), record an error when it FAILED,
then invoke `cleanup_job` unconditionally.  `cleanup_job` is called outside
any `try`, so an exception it raises propagates out of the loop. -/
def collectJobsLoop (cj : CollectJobFn) (cu : CleanupJobFn) (now : Int) :
    STask → PyVal → List (JobRec × PyVal) → Except String (STask × PyVal)
  | t, results, [] => .ok (t, results)
  | t, results, (job, userdata) :: rest =>
      Except.bind
        (if job.state = .completed then
          match cj t results job userdata with
          | (t', results', Option.none) => Except.ok (t', results')
          | (t', results', some e) =>
              (t'.fail now ("failed to collect output for job '" ++ job.name ++ "': " ++ e)).map
                (fun t'' => (t'', results'))
        else if job.state = .failed then
          Except.ok (t.add_error (.str (job.name ++ ": " ++ job.error)), results)
        else
          Except.ok (t, results))
        (fun p =>
          match cu p.1 job userdata with
          | (_, some e) => Except.error e
          | (t2, Option.none) => collectJobsLoop cj cu now t2 p.2 rest)

/-- `MultiJobExecution.collect_results` (base.py lines 288-314): start from
an empty results dict and run the per-job loop over all jobs. -/
def MultiJobExecution.collect_results (cj : CollectJobFn) (cu : CleanupJobFn) (now : Int)
    (t : STask) (jobs : List (JobRec × PyVal)) : Except String (STask × PyVal) :=
  collectJobsLoop cj cu now t (.dict []) jobs

/-- `MultiJobExecution.report` (base.py lines 262-286): once every job is
terminal, collect, store the results, and aggregate: FAILED when the
collection step failed the task or no job completed, COMPLETED otherwise. -/
def MultiJobExecution.report (cj : CollectJobFn) (cu : CleanupJobFn) (t : STask)
    (jobs : List (JobRec × PyVal)) (now : Int) : Except String STask :=
  if t.state = .started then
    if jobs.all (fun j => j.1.state == JState.completed || j.1.state == JState.failed) then do
      let (t1, results) ← MultiJobExecution.collect_results cj cu now t jobs
      let t2 := t1.store_results results
      if t2.state ≠ .failed then
        if jobs.any (fun j => j.1.state == JState.completed) then
          t2.done now
        else
          t2.fail now "no successful jobs"
      else .ok t2
    else .ok t
  else .ok t

/-! ### `kcri.qaap.workflow` — dependency graph and its load-time check -/

/-- `Params` (workflow.py lines 30-37). -/
inductive Params where
  | READS | FASTA | META | NO_TRIM | ILLUM_RUN | ILLUM_READS
  deriving DecidableEq, Repr

/-- `Checkpoints` (workflow.py lines 39-45). -/
inductive Checkpoints where
  | ASSEMBLED | CONTIGS | TRIMMED_READS | CLEANED_READS
  deriving DecidableEq, Repr

/-- `Services` (workflow.py lines 47-68). -/
inductive Services where
  | CONTIGSMETRICS | FASTQC | FASTQSCREEN | INTEROP | KNEADDATA | MULTIQC | QUAST
  | TRIMMED_FASTQC | TRIMMED_READSMETRICS | CLEAN_FASTQC | CLEAN_FASTQSCREEN
  | CLEAN_READSMETRICS | READSMETRICS | SKESA | SPADES | TRIMGALORE | TRIMMOMATIC
  | UNICYCLER
  deriving DecidableEq, Repr

/-- `UserTargets` (workflow.py lines 70-80). -/
inductive UserTargets where
  | DEFAULT | QC | READS_QC | ASSEMBLY_QC | SCREEN | CLEAN | TRIM | ASSEMBLE | POLISH
  deriving DecidableEq, Repr

/-- `SystemTargets` (workflow.py lines 82-87). -/
inductive SystemTargets where
  | POST_QC | MULTIQC
  deriving DecidableEq, Repr

/-- A workflow graph node: a value of one of the five enums above. -/
inductive Node where
  | param (p : Params)
  | checkpoint (c : Checkpoints)
  | service (s : Services)
  | userTarget (u : UserTargets)
  | systemTarget (y : SystemTargets)
  deriving DecidableEq, Repr

/-- A dependency expression over the five picoline connectors (workflow.py
lines 90-99); a bare enum value used as a dependency stands for itself. -/
inductive Dep where
  | node (n : Node)
  | ALL (ds : List Dep)
  | SEQ (ds : List Dep)
  | ONE (ds : List Dep)
  | OPT (d : Dep)
  | OIF (d : Dep)
  deriving Repr

/-- Shorthand: a `Params` value as a dependency expression. -/
def dP (p : Params) : Dep := .node (.param p)

/-- Shorthand: a `Checkpoints` value as a dependency expression. -/
def dC (c : Checkpoints) : Dep := .node (.checkpoint c)

/-- Shorthand: a `Services` value as a dependency expression. -/
def dS (s : Services) : Dep := .node (.service s)

/-- Shorthand: a `UserTargets` value as a dependency expression. -/
def dU (u : UserTargets) : Dep := .node (.userTarget u)

/-- Shorthand: a `SystemTargets` value as a dependency expression. -/
def dY (y : SystemTargets) : Dep := .node (.systemTarget y)

/-- The `DEPENDENCIES` dict of workflow.py (lines 100-157), as the partial
map from nodes to their dependency expressions; `Params` have no entry. -/
def DEPENDENCIES : Node → Option Dep
  | .userTarget .DEFAULT => some (dU .QC)
  | .userTarget .QC => some (.ALL [.OPT (dU .READS_QC), .OPT (dU .ASSEMBLY_QC)])
  | .userTarget .READS_QC => some (.ALL [.OPT (dS .READSMETRICS), .OPT (dS .FASTQC),
      .OPT (dS .FASTQSCREEN), .OPT (dS .INTEROP)])
  | .userTarget .ASSEMBLY_QC => some (.ALL [.OPT (dS .CONTIGSMETRICS), .OPT (dS .QUAST)])
  | .userTarget .SCREEN => some (dS .FASTQSCREEN)
  | .userTarget .CLEAN => some (.SEQ [.OPT (dU .READS_QC), dS .KNEADDATA, .OPT (dY .POST_QC)])
  | .userTarget .TRIM => some (.SEQ [.OPT (dU .READS_QC),
      .ONE [dS .TRIMGALORE, dS .TRIMMOMATIC], .OPT (dY .POST_QC)])
  | .userTarget .ASSEMBLE => some (.ONE [dS .SKESA, dS .SPADES, dS .UNICYCLER])
  | .userTarget .POLISH => some (dS .UNICYCLER)
  | .systemTarget .MULTIQC => some (dS .MULTIQC)
  | .systemTarget .POST_QC => some (.ALL [
      .OPT (.ONE [dS .CLEAN_READSMETRICS, dS .TRIMMED_READSMETRICS]),
      .OPT (.ONE [dS .CLEAN_FASTQC, dS .TRIMMED_FASTQC]),
      .OPT (dS .CLEAN_FASTQSCREEN)])
  | .service .CONTIGSMETRICS => some (.OIF (dC .CONTIGS))
  | .service .FASTQC => some (dP .READS)
  | .service .FASTQSCREEN => some (dP .READS)
  | .service .INTEROP => some (dP .ILLUM_RUN)
  | .service .KNEADDATA => some (.ALL [dP .META, .ONE [dP .NO_TRIM, dC .TRIMMED_READS]])
  | .service .MULTIQC => some (.ALL [])
  | .service .QUAST => some (.OIF (dC .CONTIGS))
  | .service .TRIMMED_FASTQC => some (.OIF (dC .TRIMMED_READS))
  | .service .TRIMMED_READSMETRICS => some (.OIF (dC .TRIMMED_READS))
  | .service .CLEAN_FASTQC => some (.OIF (dC .CLEANED_READS))
  | .service .CLEAN_FASTQSCREEN => some (.OIF (dC .CLEANED_READS))
  | .service .CLEAN_READSMETRICS => some (.OIF (dC .CLEANED_READS))
  | .service .READSMETRICS => some (dP .READS)
  | .service .SKESA => some (.ALL [.ONE [dP .ILLUM_READS, dP .ILLUM_RUN], dP .READS])
  | .service .SPADES => some (.ALL [dP .READS, dS .TRIMMOMATIC])
  | .service .TRIMGALORE => some (dP .READS)
  | .service .TRIMMOMATIC => some (.ALL [.ONE [dP .ILLUM_READS, dP .ILLUM_RUN], dP .READS])
  | .service .UNICYCLER => some (dP .READS)
  | .checkpoint .CONTIGS => some (.ONE [dP .FASTA, dC .ASSEMBLED])
  | .checkpoint .ASSEMBLED => some (.ONE [dS .SKESA, dS .SPADES, dS .UNICYCLER])
  | .checkpoint .TRIMMED_READS => some (.ONE [dS .TRIMGALORE, dS .TRIMMOMATIC])
  | .checkpoint .CLEANED_READS => some (dS .KNEADDATA)
  | .param _ => Option.none

/-- All `Params` values, in declaration order. -/
def Params.enumAll : List Params := [.READS, .FASTA, .META, .NO_TRIM, .ILLUM_RUN, .ILLUM_READS]

/-- All `Checkpoints` values, in declaration order. -/
def Checkpoints.enumAll : List Checkpoints := [.ASSEMBLED, .CONTIGS, .TRIMMED_READS, .CLEANED_READS]

/-- All `Services` values, in declaration order. -/
def Services.enumAll : List Services :=
  [.CONTIGSMETRICS, .FASTQC, .FASTQSCREEN, .INTEROP, .KNEADDATA, .MULTIQC, .QUAST,
   .TRIMMED_FASTQC, .TRIMMED_READSMETRICS, .CLEAN_FASTQC, .CLEAN_FASTQSCREEN,
   .CLEAN_READSMETRICS, .READSMETRICS, .SKESA, .SPADES, .TRIMGALORE, .TRIMMOMATIC,
   .UNICYCLER]

/-- All `UserTargets` values, in declaration order. -/
def UserTargets.enumAll : List UserTargets :=
  [.DEFAULT, .QC, .READS_QC, .ASSEMBLY_QC, .SCREEN, .CLEAN, .TRIM, .ASSEMBLE, .POLISH]

/-- All `SystemTargets` values, in declaration order. -/
def SystemTargets.enumAll : List SystemTargets := [.POST_QC, .MULTIQC]

/-- The consistency check on the dependency definitions (workflow.py lines
159-166), run by `assert` at module import, i.e. before any workflow runs:
no `Params` value may have a dependency expression, and every
`Checkpoints`, `Services`, `UserTargets` and `SystemTargets` value must
have one.  `Option.isSome` models the Python truthiness of a present
connector object (class instances are truthy). -/
def depsCheck (deps : Node → Option Dep) : Bool :=
  Params.enumAll.all (fun p => (deps (.param p)).isNone)
  && (Checkpoints.enumAll.all (fun c => (deps (.checkpoint c)).isSome)
  && (Services.enumAll.all (fun s => (deps (.service s)).isSome)
  && (UserTargets.enumAll.all (fun u => (deps (.userTarget u)).isSome)
  && SystemTargets.enumAll.all (fun y => (deps (.systemTarget y)).isSome))))

/-! ### Concrete instances used by the theorems below -/

/-- The string contains no `/`, as is true of every service id in the
`Services` enum; needed to reason about the slash-delimited blackboard
paths that are built around `sid`. -/
def noSlash (s : String) : Prop := ∀ c ∈ s.data, c ≠ '/'

/-- A representative freshly constructed service execution (service id `S`,
started at instant 3 on an empty blackboard). -/
def sampleTask : STask := mkServiceExecution "shim" "1.0" "S" Blackboard.empty 3

/-- An instrumented per-job collector: records each invocation by appending
the job name to the top-level `collect_log` list, stores `job.name ↦ "ok"`
in the results dict, and raises `boom` exactly on the job names in `bad`. -/
def cjProbe (bad : List String) : CollectJobFn := fun t results job _ =>
  let t' : STask := { t with bb := t.bb.append_to "collect_log" (.str job.name) }
  if job.name ∈ bad then (t', results, some "boom")
  else (t', bbPut results [job.name] (.str "ok"), Option.none)

/-- An instrumented per-job cleanup: records each invocation by appending
the job name to the top-level `cleanup_log` list and raises `cleanup boom`
exactly on the job names in `bad`. -/
def cuProbe (bad : List String) : CleanupJobFn := fun t job _ =>
  ({ t with bb := t.bb.append_to "cleanup_log" (.str job.name) },
   if job.name ∈ bad then some "cleanup boom" else Option.none)

/-! ### Helper lemmas: association lists, the blackboard tree, and paths -/

theorem kvFind_kvUpd_same (kvs : List (String × PyVal)) (k : String) (v : PyVal) :
    kvFind (kvUpd kvs k v) k = some v := by
  induction kvs with
  | nil => simp [kvUpd, kvFind]
  | cons hd tl ih =>
      obtain ⟨k', v'⟩ := hd
      by_cases h : k' = k <;> simp [kvUpd, kvFind, h, ih]

theorem kvFind_kvUpd_ne (kvs : List (String × PyVal)) (k q : String) (v : PyVal)
    (h : k ≠ q) : kvFind (kvUpd kvs k v) q = kvFind kvs q := by
  induction kvs with
  | nil => simp [kvUpd, kvFind, h]
  | cons hd tl ih =>
      obtain ⟨k', v'⟩ := hd
      by_cases h' : k' = k
      · subst h'; simp [kvUpd, kvFind, h]
      · simp [kvUpd, kvFind, h', ih]

theorem bbGet_bbPut_same (ps : List String) : ∀ (r v : PyVal), bbGet (bbPut r ps v) ps = some v := by
  induction ps with
  | nil => intro r v; simp [bbPut, bbGet]
  | cons p ps ih =>
      intro r v
      cases r <;> simp [bbPut, bbGet, kvFind_kvUpd_same, kvFind, ih]

theorem bbGet_bbPut_of_ne : ∀ (ps qs : List String) (r v : PyVal),
    ¬ ps <+: qs → ¬ qs <+: ps → bbGet (bbPut r ps v) qs = bbGet r qs := by
  intro ps
  induction ps with
  | nil => intro qs r v hpq _; exact absurd (List.nil_prefix) hpq
  | cons p ps ih =>
      intro qs r v hpq hqp
      match qs with
      | [] => exact absurd (List.nil_prefix) hqp
      | q :: qs =>
          by_cases hq : p = q
          · subst hq
            have hpq' : ¬ ps <+: qs := fun h => hpq (List.cons_prefix_cons.2 ⟨rfl, h⟩)
            have hqp' : ¬ qs <+: ps := fun h => hqp (List.cons_prefix_cons.2 ⟨rfl, h⟩)
            obtain ⟨q', qs', rfl⟩ : ∃ a b, qs = a :: b := by
              cases qs with
              | nil => exact absurd List.nil_prefix hqp'
              | cons a b => exact ⟨a, b, rfl⟩
            cases r with
            | dict kvs =>
                simp only [bbPut, bbGet, kvFind_kvUpd_same]
                cases hk : kvFind kvs p with
                | some w => simpa [hk] using ih _ w v hpq' hqp'
                | none => simp [hk, ih _ _ v hpq' hqp', bbGet, kvFind]
            | none => simp [bbPut, bbGet, kvFind, ih _ _ v hpq' hqp']
            | bool b => simp [bbPut, bbGet, kvFind, ih _ _ v hpq' hqp']
            | int n => simp [bbPut, bbGet, kvFind, ih _ _ v hpq' hqp']
            | str s => simp [bbPut, bbGet, kvFind, ih _ _ v hpq' hqp']
            | list xs => simp [bbPut, bbGet, kvFind, ih _ _ v hpq' hqp']
            | tuple xs => simp [bbPut, bbGet, kvFind, ih _ _ v hpq' hqp']
          · cases r with
            | dict kvs => simp [bbPut, bbGet, kvFind_kvUpd_ne _ _ _ _ hq]
            | none => simp [bbPut, bbGet, kvFind, hq]
            | bool b => simp [bbPut, bbGet, kvFind, hq]
            | int n => simp [bbPut, bbGet, kvFind, hq]
            | str s => simp [bbPut, bbGet, kvFind, hq]
            | list xs => simp [bbPut, bbGet, kvFind, hq]
            | tuple xs => simp [bbPut, bbGet, kvFind, hq]

theorem string_data_append (a b : String) : (a ++ b).data = a.data ++ b.data := by
  cases a; cases b; rfl

theorem string_mk_data (s : String) : String.mk s.data = s := rfl

theorem splitSegsAux_slash (l : List Char) (cs : List Char) :
    ∀ acc, (∀ c ∈ l, c ≠ '/') →
      splitSegsAux (l ++ '/' :: cs) acc
        = String.mk (acc.reverse ++ l) :: splitSegsAux cs [] := by
  induction l with
  | nil => intro acc _; simp [splitSegsAux]
  | cons c l ih =>
      intro acc h
      have hc : ¬ c = '/' := h c (by simp)
      simp only [List.cons_append, splitSegsAux, if_neg hc, List.append_eq]
      rw [ih (c :: acc) (fun x hx => h x (List.mem_cons_of_mem _ hx))]
      simp

theorem splitSegsAux_noSlash (l : List Char) :
    ∀ acc, (∀ c ∈ l, c ≠ '/') → splitSegsAux l acc = [String.mk (acc.reverse ++ l)] := by
  induction l with
  | nil => intro acc _; simp [splitSegsAux]
  | cons c l ih =>
      intro acc h
      have hc : ¬ c = '/' := h c (by simp)
      simp only [splitSegsAux, if_neg hc]
      rw [ih (c :: acc) (fun x hx => h x (List.mem_cons_of_mem _ hx))]
      simp

theorem pathSegs_task_info (sid : String) (h : noSlash sid) (sub : String) :
    pathSegs ("services/" ++ sid ++ "/task_info/" ++ sub)
      = "services" :: sid :: "task_info" :: pathSegs sub := by
  have e : ("services/" ++ sid ++ "/task_info/" ++ sub).data
      = "services".data ++ '/' :: (sid.data ++ '/' :: ("task_info".data ++ '/' :: sub.data)) := by
    simp only [string_data_append, List.append_assoc]
    rfl
  show splitSegsAux ("services/" ++ sid ++ "/task_info/" ++ sub).data [] = _
  rw [e, splitSegsAux_slash _ _ [] (by decide), splitSegsAux_slash _ _ [] h,
    splitSegsAux_slash _ _ [] (by decide)]
  simp [string_mk_data, pathSegs]

theorem pathSegs_errors (sid : String) (h : noSlash sid) :
    pathSegs ("services/" ++ sid ++ "/errors") = ["services", sid, "errors"] := by
  have e : ("services/" ++ sid ++ "/errors").data
      = "services".data ++ '/' :: (sid.data ++ '/' :: "errors".data) := by
    simp only [string_data_append, List.append_assoc]
    rfl
  show splitSegsAux ("services/" ++ sid ++ "/errors").data [] = _
  rw [e, splitSegsAux_slash _ _ [] (by decide), splitSegsAux_slash _ _ [] h,
    splitSegsAux_noSlash _ [] (by decide)]
  simp [string_mk_data]

theorem pathSegs_results (sid : String) (h : noSlash sid) :
    pathSegs ("services/" ++ sid ++ "/results") = ["services", sid, "results"] := by
  have e : ("services/" ++ sid ++ "/results").data
      = "services".data ++ '/' :: (sid.data ++ '/' :: "results".data) := by
    simp only [string_data_append, List.append_assoc]
    rfl
  show splitSegsAux ("services/" ++ sid ++ "/results").data [] = _
  rw [e, splitSegsAux_slash _ _ [] (by decide), splitSegsAux_slash _ _ [] h,
    splitSegsAux_noSlash _ [] (by decide)]
  simp [string_mk_data]

/-! ### Helper lemmas: blackboard reads through writes, task fields -/

theorem getOpt_put_same (bb : Blackboard) (p : String) (v : PyVal) :
    (bb.put p v).getOpt p = some v :=
  bbGet_bbPut_same (pathSegs p) bb.root v

theorem getOpt_put_ne (bb : Blackboard) (p q : String) (v : PyVal)
    (h1 : ¬ pathSegs p <+: pathSegs q) (h2 : ¬ pathSegs q <+: pathSegs p) :
    (bb.put p v).getOpt q = bb.getOpt q :=
  bbGet_bbPut_of_ne (pathSegs p) (pathSegs q) bb.root v h1 h2

theorem getOpt_append_same (bb : Blackboard) (p : String) (v : PyVal)
    (hv : ∀ vs, v ≠ .list vs) :
    (bb.append_to p v).getOpt p = some (.list (bbListAt bb p ++ [v])) := by
  unfold Blackboard.append_to bbListAt
  cases hc : bb.getOpt p with
  | none =>
      cases v <;> first
        | exact absurd rfl (hv _)
        | simp [getOpt_put_same]
  | some w =>
      cases w <;> cases v <;> first
        | exact absurd rfl (hv _)
        | simp [getOpt_put_same]

theorem getOpt_append_ne (bb : Blackboard) (p q : String) (v : PyVal)
    (h1 : ¬ pathSegs p <+: pathSegs q) (h2 : ¬ pathSegs q <+: pathSegs p) :
    (bb.append_to p v).getOpt q = bb.getOpt q := by
  unfold Blackboard.append_to
  exact getOpt_put_ne bb p q _ h1 h2

theorem put_task_info_state (t : STask) (p : String) (v : PyVal) :
    (t.put_task_info p v).state = t.state := rfl

theorem put_task_info_error (t : STask) (p : String) (v : PyVal) :
    (t.put_task_info p v).error = t.error := rfl

theorem put_task_info_sid (t : STask) (p : String) (v : PyVal) :
    (t.put_task_info p v).sid = t.sid := rfl

theorem add_error_state (t : STask) (v : PyVal) : (t.add_error v).state = t.state := rfl

theorem add_error_error (t : STask) (v : PyVal) : (t.add_error v).error = t.error := rfl

theorem add_error_sid (t : STask) (v : PyVal) : (t.add_error v).sid = t.sid := rfl

theorem store_results_state (t : STask) (v : PyVal) : (t.store_results v).state = t.state := rfl

theorem store_results_error (t : STask) (v : PyVal) : (t.store_results v).error = t.error := rfl

theorem store_results_sid (t : STask) (v : PyVal) : (t.store_results v).sid = t.sid := rfl

theorem stampTimes_fields {t : STask} {now : Int} {ns : TState} {t2 : STask}
    (h : STask.stampTimes t now ns = .ok t2) :
    t2.state = t.state ∧ t2.error = t.error ∧ t2.sid = t.sid := by
  unfold STask.stampTimes at h
  split at h
  · injection h with h; subst h; exact ⟨rfl, rfl, rfl⟩
  · split at h
    · injection h with h; subst h; exact ⟨rfl, rfl, rfl⟩
    · cases h

theorem stampStatus_fields (t : STask) (ns : TState) (err : Option String) :
    (t.stampStatus ns err).state = t.state ∧ (t.stampStatus ns err).error = t.error
      ∧ (t.stampStatus ns err).sid = t.sid := by
  unfold STask.stampStatus
  split <;> exact ⟨rfl, rfl, rfl⟩

theorem transition_fields {t : STask} {now : Int} {ns : TState} {err : Option String}
    {t' : STask} (h : STask.transition t now ns err = .ok t') :
    t'.state = ns ∧ t'.error = err ∧ t'.sid = t.sid := by
  unfold STask.transition at h
  cases hst : STask.stampTimes { t with state := ns, error := err } now ns with
  | error e => rw [hst] at h; simp [Except.map] at h
  | ok t2 =>
      rw [hst] at h
      simp only [Except.map, Except.ok.injEq] at h
      subst h
      obtain ⟨h1, h2, h3⟩ := stampTimes_fields hst
      obtain ⟨g1, g2, g3⟩ := stampStatus_fields t2 ns err
      simp_all

theorem stampTimes_isOk {t : STask} (now : Int) (ns : TState)
    (h : ns = .started ∨ t.hasStart = true) :
    ∃ t2, STask.stampTimes t now ns = .ok t2 := by
  unfold STask.stampTimes
  by_cases hs : ns = .started
  · simp [hs]
  · rcases h with h | h
    · exact absurd h hs
    · unfold STask.hasStart at h
      cases hv : t.get_task_info "time/start" with
      | none => rw [hv] at h; simp at h
      | some v =>
          cases v with
          | int s => simp [hs, hv]
          | none => rw [hv] at h; simp at h
          | bool b => rw [hv] at h; simp at h
          | str s => rw [hv] at h; simp at h
          | list xs => rw [hv] at h; simp at h
          | tuple xs => rw [hv] at h; simp at h
          | dict kvs => rw [hv] at h; simp at h

theorem transition_ok {t : STask} (now : Int) (ns : TState) (err : Option String)
    (h : ns = .started ∨ t.hasStart = true) :
    ∃ t', STask.transition t now ns err = .ok t' := by
  obtain ⟨t2, h2⟩ := stampTimes_isOk (t := { t with state := ns, error := err }) now ns h
  refine ⟨t2.stampStatus ns err, ?_⟩
  unfold STask.transition
  rw [h2]
  rfl

theorem pathSegs_taskInfoPath (sid : String) (h : noSlash sid) (sub : String) :
    pathSegs (taskInfoPath sid sub) = "services" :: sid :: "task_info" :: pathSegs sub :=
  pathSegs_task_info sid h sub

theorem pathSegs_errorsPath (sid : String) (h : noSlash sid) :
    pathSegs (errorsPath sid) = ["services", sid, "errors"] :=
  pathSegs_errors sid h

theorem pathSegs_resultsPath (sid : String) (h : noSlash sid) :
    pathSegs (resultsPath sid) = ["services", sid, "results"] :=
  pathSegs_results sid h

theorem get_task_info_put_same (t : STask) (sub : String) (v : PyVal) :
    (t.put_task_info sub v).get_task_info sub = some v := by
  unfold STask.get_task_info STask.put_task_info
  exact getOpt_put_same _ _ _

theorem get_task_info_put_ne (t : STask) (hsid : noSlash t.sid) (sub1 sub2 : String) (v : PyVal)
    (d1 : ¬ pathSegs sub1 <+: pathSegs sub2) (d2 : ¬ pathSegs sub2 <+: pathSegs sub1) :
    (t.put_task_info sub1 v).get_task_info sub2 = t.get_task_info sub2 := by
  unfold STask.get_task_info STask.put_task_info
  dsimp only
  refine getOpt_put_ne _ _ _ _ ?_ ?_ <;>
    rw [pathSegs_taskInfoPath _ hsid, pathSegs_taskInfoPath _ hsid] <;>
    simp [List.cons_prefix_cons, d1, d2]

theorem get_task_info_add_error (t : STask) (hsid : noSlash t.sid) (sub : String) (v : PyVal) :
    (t.add_error v).get_task_info sub = t.get_task_info sub := by
  unfold STask.get_task_info STask.add_error
  dsimp only
  refine getOpt_append_ne _ _ _ _ ?_ ?_ <;>
    rw [pathSegs_errorsPath _ hsid, pathSegs_taskInfoPath _ hsid] <;>
    simp [List.cons_prefix_cons]

theorem get_task_info_store_results (t : STask) (hsid : noSlash t.sid) (sub : String)
    (v : PyVal) :
    (t.store_results v).get_task_info sub = t.get_task_info sub := by
  unfold STask.get_task_info STask.store_results
  dsimp only
  refine getOpt_put_ne _ _ _ _ ?_ ?_ <;>
    rw [pathSegs_resultsPath _ hsid, pathSegs_taskInfoPath _ hsid] <;>
    simp [List.cons_prefix_cons]

theorem errList_put_task_info (t : STask) (hsid : noSlash t.sid) (sub : String) (v : PyVal) :
    (t.put_task_info sub v).errList = t.errList := by
  unfold STask.errList STask.put_task_info bbListAt
  dsimp only
  rw [getOpt_put_ne] <;>
    rw [pathSegs_taskInfoPath _ hsid, pathSegs_errorsPath _ hsid] <;>
    simp [List.cons_prefix_cons]

theorem errList_store_results (t : STask) (hsid : noSlash t.sid) (v : PyVal) :
    (t.store_results v).errList = t.errList := by
  unfold STask.errList STask.store_results bbListAt
  dsimp only
  rw [getOpt_put_ne] <;>
    rw [pathSegs_resultsPath _ hsid, pathSegs_errorsPath _ hsid] <;>
    simp [List.cons_prefix_cons]

theorem errList_add_error (t : STask) (v : PyVal) (hv : ∀ vs, v ≠ .list vs) :
    (t.add_error v).errList = t.errList ++ [v] := by
  unfold STask.errList STask.add_error
  dsimp only
  show bbListAt (t.bb.append_to (errorsPath t.sid) v) (errorsPath t.sid) = _
  unfold bbListAt
  rw [getOpt_append_same _ _ _ hv]
  rfl

theorem hasStart_put_task_info (t : STask) (hsid : noSlash t.sid) (sub : String) (v : PyVal)
    (d1 : ¬ pathSegs sub <+: ["time", "start"])
    (d2 : ¬ (["time", "start"] : List String) <+: pathSegs sub) :
    (t.put_task_info sub v).hasStart = t.hasStart := by
  unfold STask.hasStart
  rw [get_task_info_put_ne t hsid sub "time/start" v d1 d2]

theorem hasStart_add_error (t : STask) (hsid : noSlash t.sid) (v : PyVal) :
    (t.add_error v).hasStart = t.hasStart := by
  unfold STask.hasStart
  rw [get_task_info_add_error t hsid]

theorem hasStart_store_results (t : STask) (hsid : noSlash t.sid) (v : PyVal) :
    (t.store_results v).hasStart = t.hasStart := by
  unfold STask.hasStart
  rw [get_task_info_store_results t hsid]

theorem hasStart_stampStatus (t : STask) (hsid : noSlash t.sid) (ns : TState)
    (err : Option String) :
    (t.stampStatus ns err).hasStart = t.hasStart := by
  unfold STask.stampStatus
  dsimp only
  split
  · rw [hasStart_add_error _ (by simpa using hsid),
      hasStart_put_task_info t hsid _ _ (by decide) (by decide)]
  · rw [hasStart_put_task_info t hsid _ _ (by decide) (by decide)]

theorem stampStatus_sid (t : STask) (ns : TState) (err : Option String) :
    (t.stampStatus ns err).sid = t.sid := (stampStatus_fields t ns err).2.2

theorem stampTimes_hasStart {t : STask} {now : Int} {ns : TState} {t2 : STask}
    (hsid : noSlash t.sid) (h : STask.stampTimes t now ns = .ok t2)
    (hh : t.hasStart = true) : t2.hasStart = true := by
  unfold STask.stampTimes at h
  split at h
  · injection h with h; subst h
    unfold STask.hasStart
    rw [get_task_info_put_same]
  · split at h
    · injection h with h; subst h
      rw [STask.hasStart,
        get_task_info_put_ne _ (by simpa using hsid) _ _ _ (by decide) (by decide),
        get_task_info_put_ne _ hsid _ _ _ (by decide) (by decide)]
      exact hh
    · cases h

theorem transition_keeps_hasStart {t : STask} {now : Int} {ns : TState} {err : Option String}
    {t' : STask} (hsid : noSlash t.sid) (h : STask.transition t now ns err = .ok t')
    (hh : t.hasStart = true) : t'.hasStart = true := by
  unfold STask.transition at h
  cases hst : STask.stampTimes { t with state := ns, error := err } now ns with
  | error e => rw [hst] at h; simp [Except.map] at h
  | ok t2 =>
      rw [hst] at h
      simp only [Except.map, Except.ok.injEq] at h
      subst h
      have h2 : t2.hasStart = true :=
        stampTimes_hasStart (t := { t with state := ns, error := err }) hsid hst hh
      have hs2 : t2.sid = t.sid := (stampTimes_fields hst).2.2
      rw [hasStart_stampStatus t2 (by rw [hs2]; exact hsid) ns err]
      exact h2

/-! ### Claim theorems -/

/-- C8: at graph load time the consistency check holds for the QAAP
dependency table — no `Params` value has a dependency expression, and every
`Checkpoints`, `Services`, `UserTargets` and `SystemTargets` value has one —
and the check rejects violating configurations (the import-time `assert`
fires before any workflow runs): it fails on a map that defines no
expressions at all, and on the QAAP map with an expression added for a
`Param`. -/
theorem C8_load_time_check :
    depsCheck DEPENDENCIES = true
    ∧ depsCheck (fun _ => Option.none) = false
    ∧ depsCheck (fun n =>
        match n with
        | .param .READS => some (.ALL [])
        | n => DEPENDENCIES n) = false :=
  ⟨by decide, by decide, by decide⟩

/-- C9: the execution-level getter never returns `None`: every `.ok` result
is non-`None`, and when the blackboard holds no value for the parameter and
the supplied default is `None` (as when omitted), it raises `UserException`
naming the parameter instead of returning the default that the underlying
blackboard get would return. -/
theorem C9_get_user_input_never_none (t : STask) (p : String) (d : PyVal) :
    (∀ v, ServiceExecution.get_user_input t p d = .ok v → v.isNone = false)
    ∧ (t.bb.getOpt ("qaap/user_inputs/" ++ p) = Option.none → d = .none →
        ServiceExecution.get_user_input t p d
          = .error ("required user input is missing: " ++ p)) := by
  constructor
  · intro v hv
    unfold ServiceExecution.get_user_input at hv
    by_cases h : (QAAPBlackboard.get_user_input t.bb p d).isNone
    · rw [if_pos h] at hv; cases hv
    · rw [if_neg h] at hv
      injection hv with hv
      subst hv
      simpa using h
  · intro habs hd
    unfold ServiceExecution.get_user_input QAAPBlackboard.get_user_input Blackboard.get
    rw [show bbGet t.bb.root (pathSegs ("qaap/user_inputs/" ++ p)) = Option.none from habs]
    subst hd
    rfl

/-- C9 witness: on a freshly constructed task (whose blackboard has no user
inputs), asking for parameter `reference` with the default omitted raises
the `UserException` naming it. -/
theorem C9_get_user_input_never_none_witness :
    ServiceExecution.get_user_input sampleTask "reference" .none
      = .error ("required user input is missing: " ++ "reference") :=
  (C9_get_user_input_never_none sampleTask "reference" .none).2 rfl rfl

/-- C6: COMPLETED and FAILED are absorbing for `report()` on both the
single-job and the multi-job implementation: a task in a terminal state is
returned unchanged — same state, no transition, and no blackboard write
(the returned task is identical).  Construction leaves a task STARTED, and
`report` is the only state-changing operation of the embedded interface. -/
theorem C6_terminal_stable (t : STask) (job : JobRec) (jobs : List (JobRec × PyVal))
    (collect : STask → JobRec → STask) (cj : CollectJobFn) (cu : CleanupJobFn) (now : Int)
    (h : t.state = .completed ∨ t.state = .failed) :
    ServiceExecution.report collect t job now = .ok t
    ∧ MultiJobExecution.report cj cu t jobs now = .ok t := by
  have hs : t.state ≠ .started := by rcases h with h | h <;> simp [h]
  constructor
  · unfold ServiceExecution.report
    rw [if_neg hs]
  · unfold MultiJobExecution.report
    rw [if_neg hs]

/-- C6 witness: a COMPLETED task is returned unchanged by the single-job
`report`. -/
theorem C6_terminal_stable_witness :
    (⟨"S", .completed, Option.none, Blackboard.empty⟩ : STask).state = TState.completed
    ∧ ServiceExecution.report (fun t _ => t) ⟨"S", .completed, Option.none, Blackboard.empty⟩
        ⟨"j", JState.completed, ""⟩ 7
      = .ok ⟨"S", .completed, Option.none, Blackboard.empty⟩ :=
  ⟨rfl, (C6_terminal_stable ⟨"S", .completed, Option.none, Blackboard.empty⟩
    ⟨"j", JState.completed, ""⟩ [] (fun t _ => t) (cjProbe []) (cuProbe []) 7 (Or.inl rfl)).1⟩

/-- C2: while a STARTED multi-job task has at least one job that is neither
COMPLETED nor FAILED, `report()` returns the task completely unchanged — it
stays STARTED, collects nothing and writes nothing, so no other state is
observable. -/
theorem C2_multi_report_waits (cj : CollectJobFn) (cu : CleanupJobFn) (t : STask)
    (jobs : List (JobRec × PyVal)) (now : Int)
    (hstate : t.state = .started)
    (hwait : ∃ jb ∈ jobs, jb.1.state ≠ JState.completed ∧ jb.1.state ≠ JState.failed) :
    MultiJobExecution.report cj cu t jobs now = .ok t ∧ t.state = .started := by
  refine ⟨?_, hstate⟩
  have hall : ¬ (jobs.all
      (fun j => j.1.state == JState.completed || j.1.state == JState.failed) = true) := by
    intro hall
    obtain ⟨jb, hmem, h1, h2⟩ := hwait
    have := List.all_eq_true.mp hall jb hmem
    simp at this
    rcases this with h | h
    · exact h1 h
    · exact h2 h
  unfold MultiJobExecution.report
  rw [if_pos hstate, if_neg hall]

/-- C2 witness: a started task with one RUNNING and one COMPLETED job is
returned unchanged. -/
theorem C2_multi_report_waits_witness :
    MultiJobExecution.report (cjProbe []) (cuProbe []) sampleTask
        [(⟨"a", JState.running, ""⟩, .none), (⟨"b", JState.completed, ""⟩, .none)] 9
      = .ok sampleTask :=
  (C2_multi_report_waits (cjProbe []) (cuProbe []) sampleTask
    [(⟨"a", JState.running, ""⟩, .none), (⟨"b", JState.completed, ""⟩, .none)] 9 rfl
    ⟨(⟨"a", JState.running, ""⟩, .none), by simp, by simp, by simp⟩).1

/-- C3: single-job `report()` from STARTED follows the wrapped job: on a
COMPLETED job it invokes the collector and then transitions the task to
COMPLETED — unless the collector itself marked the task FAILED, in which
case the task is returned exactly as the collector left it; on a FAILED job
it transitions to FAILED carrying the job's error text; on a PENDING or
RUNNING job the task stays STARTED, unchanged. -/
theorem C3_single_report (collect : STask → JobRec → STask) (t : STask) (job : JobRec)
    (now : Int) (hstate : t.state = .started) :
    (job.state = .completed → (collect t job).state ≠ .failed →
      ∀ t'', (collect t job).done now = .ok t'' →
        ServiceExecution.report collect t job now = .ok t'' ∧ t''.state = .completed)
    ∧ (job.state = .completed → (collect t job).state = .failed →
        ServiceExecution.report collect t job now = .ok (collect t job))
    ∧ (job.state = .failed → ∀ t'', t.fail now job.error = .ok t'' →
        ServiceExecution.report collect t job now = .ok t'' ∧ t''.state = .failed
          ∧ t''.error = some job.error)
    ∧ (job.state ≠ .completed → job.state ≠ .failed →
        ServiceExecution.report collect t job now = .ok t ∧ t.state = .started) := by
  refine ⟨?_, ?_, ?_, ?_⟩
  · intro hjob hnf t'' hdone
    unfold ServiceExecution.report
    rw [if_pos hstate, if_pos hjob]
    show (if (collect t job).state ≠ .failed then (collect t job).done now
        else .ok (collect t job)) = _ ∧ _
    rw [if_pos hnf, hdone]
    unfold STask.done at hdone
    exact ⟨rfl, (transition_fields hdone).1⟩
  · intro hjob hf
    unfold ServiceExecution.report
    rw [if_pos hstate, if_pos hjob]
    show (if (collect t job).state ≠ .failed then (collect t job).done now
        else .ok (collect t job)) = _
    rw [if_neg (by simpa using hf)]
  · intro hjob t'' hfail
    unfold ServiceExecution.report
    rw [if_pos hstate, if_neg (by simp [hjob]), if_pos hjob]
    unfold STask.fail at hfail
    exact ⟨hfail, (transition_fields hfail).1, (transition_fields hfail).2.1⟩
  · intro h1 h2
    unfold ServiceExecution.report
    rw [if_pos hstate, if_neg h1, if_neg h2]
    exact ⟨rfl, hstate⟩

/-- C3 witness: with the identity collector, reporting a COMPLETED job on a
fresh task ends the task COMPLETED. -/
theorem C3_single_report_witness :
    (ServiceExecution.report (fun t _ => t) sampleTask ⟨"j", JState.completed, ""⟩ 5).map
        STask.state = .ok TState.completed := by
  obtain ⟨t'', hd⟩ :=
    transition_ok (t := sampleTask) 5 TState.completed Option.none (Or.inr rfl)
  obtain ⟨h1, h2⟩ := (C3_single_report (fun t _ => t) sampleTask
      ⟨"j", JState.completed, ""⟩ 5 rfl).1 rfl (by decide) t'' hd
  rw [h1]
  simp [Except.map, h2]

theorem pyEqF_refl_of_falsy (o : PyVal) (h : pyFalsy o = true) : pyEqF o o = true := by
  cases o with
  | none => rfl
  | bool b => simp [pyEqF]
  | int n => simp [pyEqF]
  | str s => simp [pyEqF]
  | list xs => simp only [pyFalsy, List.isEmpty_iff] at h; subst h; rfl
  | tuple xs => simp only [pyFalsy, List.isEmpty_iff] at h; subst h; rfl
  | dict kvs => simp only [pyFalsy, List.isEmpty_iff] at h; subst h; rfl

theorem rel_rec_matches_spec (base cwd : String) :
    (∀ o, ∀ r, rel_rec base cwd o = .ok r → relSpecR base cwd o r = true)
    ∧ (∀ kvs, ∀ kvs', relKvs base cwd kvs = .ok kvs' → relSpecKvs base cwd kvs kvs' = true)
    ∧ (∀ xs, ∀ ys, relSeq base cwd xs = .ok ys → relSpecSeq base cwd xs ys = true) := by
  refine rel_rec.mutual_induct base cwd
    (fun o => ∀ r, rel_rec base cwd o = .ok r → relSpecR base cwd o r = true)
    (fun kvs => ∀ kvs', relKvs base cwd kvs = .ok kvs' → relSpecKvs base cwd kvs kvs' = true)
    (fun xs => ∀ ys, relSeq base cwd xs = .ok ys → relSpecSeq base cwd xs ys = true)
    ?_ ?_ ?_ ?_ ?_ ?_ ?_ ?_ ?_ ?_
  · intro t ht r hr
    unfold rel_rec at hr
    rw [if_pos ht] at hr
    injection hr with hr
    subst hr
    unfold relSpecR
    rw [if_pos ht]
    exact pyEqF_refl_of_falsy _ ht
  · intro s hs r hr
    unfold rel_rec at hr
    rw [if_neg hs] at hr
    injection hr with hr
    subst hr
    unfold relSpecR
    rw [if_neg hs]
    simp
  · intro xs hxs ih r hr
    unfold rel_rec at hr
    rw [if_neg hxs] at hr
    dsimp only at hr
    cases hseq : relSeq base cwd xs with
    | error e => rw [hseq] at hr; simp [Except.map] at hr
    | ok ys =>
        rw [hseq] at hr
        simp only [Except.map] at hr
        injection hr with hr
        subst hr
        unfold relSpecR
        rw [if_neg hxs]
        dsimp only
        exact ih ys hseq
  · intro xs hxs ih r hr
    unfold rel_rec at hr
    rw [if_neg hxs] at hr
    dsimp only at hr
    cases hseq : relSeq base cwd xs with
    | error e => rw [hseq] at hr; simp [Except.map] at hr
    | ok ys =>
        rw [hseq] at hr
        simp only [Except.map] at hr
        injection hr with hr
        subst hr
        unfold relSpecR
        rw [if_neg hxs]
        dsimp only
        exact ih ys hseq
  · intro kvs hkvs ih r hr
    unfold rel_rec at hr
    rw [if_neg hkvs] at hr
    dsimp only at hr
    cases hk : relKvs base cwd kvs with
    | error e => rw [hk] at hr; simp [Except.map] at hr
    | ok kvs' =>
        rw [hk] at hr
        simp only [Except.map] at hr
        injection hr with hr
        subst hr
        unfold relSpecR
        rw [if_neg hkvs]
        dsimp only
        exact ih kvs' hk
  · intro o hstr hlist htuple hdict hfalsy r hr
    exfalso
    unfold rel_rec at hr
    rw [if_neg hfalsy] at hr
    cases o with
    | none => exact hfalsy rfl
    | bool b => simp at hr
    | int n => simp at hr
    | str s => exact hstr s rfl
    | list xs => exact hlist xs rfl
    | tuple xs => exact htuple xs rfl
    | dict kvs => exact hdict kvs rfl
  · intro ys h
    unfold relSeq at h
    injection h with h
    subst h
    rfl
  · intro x xs ihx ihxs ys h
    unfold relSeq at h
    cases hx : rel_rec base cwd x with
    | error e => rw [hx] at h; simp [Bind.bind, Except.bind] at h
    | ok y =>
        rw [hx] at h
        cases hxs2 : relSeq base cwd xs with
        | error e => rw [hxs2] at h; simp [Bind.bind, Except.bind] at h
        | ok ys' =>
            rw [hxs2] at h
            simp only [Bind.bind, Except.bind] at h
            injection h with h
            subst h
            unfold relSpecSeq
            simp [ihx y hx, ihxs ys' hxs2]
  · intro kvs' h
    unfold relKvs at h
    injection h with h
    subst h
    rfl
  · intro k v kvs ihv ihkvs kvs' h
    unfold relKvs at h
    cases hv : rel_rec base cwd v with
    | error e => rw [hv] at h; simp [Bind.bind, Except.bind] at h
    | ok w =>
        rw [hv] at h
        cases hk2 : relKvs base cwd kvs with
        | error e => rw [hk2] at h; simp [Bind.bind, Except.bind] at h
        | ok rest =>
            rw [hk2] at h
            simp only [Bind.bind, Except.bind] at h
            injection h with h
            subst h
            unfold relSpecKvs
            simp [ihv w hv, ihkvs rest hk2]

theorem rel_rec_ok_iff_noBad (base cwd : String) :
    (∀ o, exOk (rel_rec base cwd o) = !hasBad o)
    ∧ (∀ kvs, exOk (relKvs base cwd kvs) = !hasBadKvs kvs)
    ∧ (∀ xs, exOk (relSeq base cwd xs) = !hasBadSeq xs) := by
  refine rel_rec.mutual_induct base cwd
    (fun o => exOk (rel_rec base cwd o) = !hasBad o)
    (fun kvs => exOk (relKvs base cwd kvs) = !hasBadKvs kvs)
    (fun xs => exOk (relSeq base cwd xs) = !hasBadSeq xs)
    ?_ ?_ ?_ ?_ ?_ ?_ ?_ ?_ ?_ ?_
  · intro t ht
    unfold rel_rec hasBad
    rw [if_pos ht, if_pos ht]
    rfl
  · intro s hs
    unfold rel_rec hasBad
    rw [if_neg hs, if_neg hs]
    rfl
  · intro xs hxs ih
    unfold rel_rec hasBad
    rw [if_neg hxs, if_neg hxs]
    dsimp only
    cases hseq : relSeq base cwd xs with
    | error e => rw [hseq] at ih; simpa [exOk, Except.map] using ih
    | ok ys => rw [hseq] at ih; simpa [exOk, Except.map] using ih
  · intro xs hxs ih
    unfold rel_rec hasBad
    rw [if_neg hxs, if_neg hxs]
    dsimp only
    cases hseq : relSeq base cwd xs with
    | error e => rw [hseq] at ih; simpa [exOk, Except.map] using ih
    | ok ys => rw [hseq] at ih; simpa [exOk, Except.map] using ih
  · intro kvs hkvs ih
    unfold rel_rec hasBad
    rw [if_neg hkvs, if_neg hkvs]
    dsimp only
    cases hk : relKvs base cwd kvs with
    | error e => rw [hk] at ih; simpa [exOk, Except.map] using ih
    | ok kvs' => rw [hk] at ih; simpa [exOk, Except.map] using ih
  · intro o hstr hlist htuple hdict hfalsy
    unfold rel_rec hasBad
    rw [if_neg hfalsy, if_neg hfalsy]
    cases o with
    | none => exact absurd rfl hfalsy
    | bool b => rfl
    | int n => rfl
    | str s => exact absurd rfl (hstr s)
    | list xs => exact absurd rfl (hlist xs)
    | tuple xs => exact absurd rfl (htuple xs)
    | dict kvs => exact absurd rfl (hdict kvs)
  · unfold relSeq hasBadSeq
    rfl
  · intro x xs ihx ihxs
    unfold relSeq hasBadSeq
    cases hx : rel_rec base cwd x with
    | error e =>
        rw [hx] at ihx
        simp only [Bind.bind, Except.bind]
        simp [exOk] at ihx ⊢
        simp [← ihx]
    | ok y =>
        rw [hx] at ihx
        simp only [Bind.bind, Except.bind]
        cases hxs2 : relSeq base cwd xs with
        | error e =>
            rw [hxs2] at ihxs
            simp [exOk] at ihx ihxs ⊢
            simp [← ihx, ← ihxs]
        | ok ys =>
            rw [hxs2] at ihxs
            simp [exOk] at ihx ihxs ⊢
            rw [ihx, ihxs]
            exact ⟨rfl, rfl⟩
  · unfold relKvs hasBadKvs
    rfl
  · intro k v kvs ihv ihkvs
    unfold relKvs hasBadKvs
    cases hv : rel_rec base cwd v with
    | error e =>
        rw [hv] at ihv
        simp only [Bind.bind, Except.bind]
        simp [exOk] at ihv ⊢
        simp [← ihv]
    | ok w =>
        rw [hv] at ihv
        simp only [Bind.bind, Except.bind]
        cases hk2 : relKvs base cwd kvs with
        | error e =>
            rw [hk2] at ihkvs
            simp [exOk] at ihv ihkvs ⊢
            simp [← ihv, ← ihkvs]
        | ok rest =>
            rw [hk2] at ihkvs
            simp [exOk] at ihv ihkvs ⊢
            rw [ihv, ihkvs]
            exact ⟨rfl, rfl⟩

theorem slash_append_ne_empty (x : String) : ("/" ++ x) ≠ "" := by
  intro h
  have h2 := congrArg String.data h
  simp [string_data_append] at h2

theorem slash_append_head (x : String) : ("/" ++ x).data.head? = some '/' := by
  rw [string_data_append]
  rfl

theorem head_append (a b : String) (c : Char) (ha : a.data.head? = some c) :
    (a ++ b).data.head? = some c := by
  rw [string_data_append]
  cases hd : a.data with
  | nil => rw [hd] at ha; cases ha
  | cons x xs => rw [hd] at ha; simpa using ha

theorem normpath_abs (p : String) (hp : p.data.head? = some '/') :
    (os_path_normpath p).data.head? = some '/' := by
  unfold os_path_normpath
  dsimp only
  rw [if_pos hp, if_neg (slash_append_ne_empty _)]
  exact slash_append_head _

theorem join_abs (base s : String) (hb : base.data.head? = some '/') :
    (os_path_join base s).data.head? = some '/' := by
  unfold os_path_join
  by_cases hs : s.data.head? = some '/'
  · rw [if_pos hs]; exact hs
  · rw [if_neg hs]
    split
    · exact head_append _ _ _ hb
    · exact head_append _ _ _ (head_append _ _ _ hb)

theorem abspath_abs (cwd base s : String) (hb : base.data.head? = some '/') :
    (os_path_abspath cwd (os_path_join base s)).data.head? = some '/' := by
  unfold os_path_abspath
  rw [if_pos (join_abs base s hb)]
  exact normpath_abs _ (join_abs base s hb)

/-- C10: `relativise` runs `_rel_rec` against the blackboard base path, and
`_rel_rec` preserves the shape of its argument: falsy values (including the
empty string, checked before the string case) come back unchanged; every
successful result satisfies the spec-worded relation `relSpecR` — a dict
maps to a dict with the same keys, a list to a list of the same length, a
tuple to a tuple of the same length, recursively, with every contained
truthy string `s` replaced by `abspath(join(base, s))`; the call succeeds
exactly when no contained value of another type is reached (otherwise it
raises `missed case in _rel_rec`); and when the base path is absolute the
replacement strings are absolute paths — despite its name, the function
produces absolute, not relative, paths. -/
theorem C10_relativise (bb : Blackboard) (base cwd : String) (o : PyVal)
    (hbase : QAAPBlackboard.get_base_path bb = .ok (.str base)) :
    QAAPBlackboard.relativise bb cwd o = rel_rec base cwd o
    ∧ (pyFalsy o = true → rel_rec base cwd o = .ok o)
    ∧ (∀ r, rel_rec base cwd o = .ok r → relSpecR base cwd o r = true)
    ∧ exOk (rel_rec base cwd o) = !hasBad o
    ∧ (∀ s, base.data.head? = some '/' → pyFalsy (PyVal.str s) = false →
        rel_rec base cwd (.str s) = .ok (.str (os_path_abspath cwd (os_path_join base s)))
        ∧ (os_path_abspath cwd (os_path_join base s)).data.head? = some '/') := by
  refine ⟨?_, ?_, (rel_rec_matches_spec base cwd).1 o, (rel_rec_ok_iff_noBad base cwd).1 o, ?_⟩
  · unfold QAAPBlackboard.relativise
    rw [hbase]
    rfl
  · intro h
    unfold rel_rec
    rw [if_pos h]
  · intro s hb hnf
    refine ⟨?_, abspath_abs cwd base s hb⟩
    unfold rel_rec
    rw [if_neg (by simp [hnf])]

/-- C10 witness: with `out_dir` set to `/base`, relativising the dict
`{k: x, e: None}` keeps the keys, replaces the string by the absolute
`/base/x`, and keeps the falsy `None` unchanged. -/
theorem C10_relativise_witness :
    QAAPBlackboard.relativise (Blackboard.empty.put "qaap/user_inputs/out_dir" (.str "/base"))
        "/cwd" (.dict [("k", .str "x"), ("e", .none)])
      = rel_rec "/base" "/cwd" (.dict [("k", .str "x"), ("e", .none)])
    ∧ relSpecR "/base" "/cwd" (.dict [("k", .str "x"), ("e", .none)])
        (.dict [("k", .str "/base/x"), ("e", .none)]) = true := by
  have h := C10_relativise (Blackboard.empty.put "qaap/user_inputs/out_dir" (.str "/base"))
    "/base" "/cwd" (.dict [("k", .str "x"), ("e", .none)]) (by rfl)
  refine ⟨h.1, h.2.2.1 _ ?_⟩
  simp [rel_rec, relKvs, pyFalsy, os_path_abspath, os_path_join, os_path_normpath,
    pathSegs, splitSegsAux, normComps, joinSlash, Bind.bind, Except.bind, Except.map]

theorem prefix_two (q : List String) (a b : String) (rest : List String)
    (h : q <+: a :: b :: rest) : q <+: [a, b] ∨ ([a, b] : List String) <+: q := by
  match q with
  | [] => exact Or.inl List.nil_prefix
  | [x] =>
      rw [List.cons_prefix_cons] at h
      exact Or.inl (by simp [List.cons_prefix_cons, h.1])
  | x :: y :: qr =>
      rw [List.cons_prefix_cons] at h
      obtain ⟨hx, h2⟩ := h
      rw [List.cons_prefix_cons] at h2
      exact Or.inr (by simp [List.cons_prefix_cons, hx, h2.1])

theorem getOpt_outside_put_task_info (t : STask) (hsid : noSlash t.sid) (sub : String)
    (v : PyVal) (q : String)
    (h1 : ¬ pathSegs q <+: ["services", t.sid])
    (h2 : ¬ (["services", t.sid] : List String) <+: pathSegs q) :
    (t.put_task_info sub v).bb.getOpt q = t.bb.getOpt q := by
  unfold STask.put_task_info
  dsimp only
  refine getOpt_put_ne _ _ _ _ ?_ ?_
  · rw [pathSegs_taskInfoPath _ hsid]
    intro hc
    have hpre : (["services", t.sid] : List String)
        <+: "services" :: t.sid :: "task_info" :: pathSegs sub := by
      simp [List.cons_prefix_cons]
    exact h2 (hpre.trans hc)
  · rw [pathSegs_taskInfoPath _ hsid]
    intro hc
    rcases prefix_two _ _ _ _ hc with hca | hcb
    · exact h1 hca
    · exact h2 hcb

theorem getOpt_outside_add_error (t : STask) (hsid : noSlash t.sid) (v : PyVal) (q : String)
    (h1 : ¬ pathSegs q <+: ["services", t.sid])
    (h2 : ¬ (["services", t.sid] : List String) <+: pathSegs q) :
    (t.add_error v).bb.getOpt q = t.bb.getOpt q := by
  unfold STask.add_error
  dsimp only
  refine getOpt_append_ne _ _ _ _ ?_ ?_
  · rw [pathSegs_errorsPath _ hsid]
    intro hc
    have hpre : (["services", t.sid] : List String) <+: ["services", t.sid, "errors"] := by
      simp [List.cons_prefix_cons]
    exact h2 (hpre.trans hc)
  · rw [pathSegs_errorsPath _ hsid]
    intro hc
    rcases prefix_two _ _ _ _ hc with hca | hcb
    · exact h1 hca
    · exact h2 hcb

theorem getOpt_outside_store_results (t : STask) (hsid : noSlash t.sid) (v : PyVal)
    (q : String)
    (h1 : ¬ pathSegs q <+: ["services", t.sid])
    (h2 : ¬ (["services", t.sid] : List String) <+: pathSegs q) :
    (t.store_results v).bb.getOpt q = t.bb.getOpt q := by
  unfold STask.store_results
  dsimp only
  refine getOpt_put_ne _ _ _ _ ?_ ?_
  · rw [pathSegs_resultsPath _ hsid]
    intro hc
    have hpre : (["services", t.sid] : List String) <+: ["services", t.sid, "results"] := by
      simp [List.cons_prefix_cons]
    exact h2 (hpre.trans hc)
  · rw [pathSegs_resultsPath _ hsid]
    intro hc
    rcases prefix_two _ _ _ _ hc with hca | hcb
    · exact h1 hca
    · exact h2 hcb


theorem stampStatus_get_status (X : STask) (hsid : noSlash X.sid) (ns : TState)
    (err : Option String) :
    (X.stampStatus ns err).get_task_info "status" = some (.str ns.value) := by
  unfold STask.stampStatus
  dsimp only
  split
  · rw [get_task_info_add_error (X.put_task_info "status" (.str ns.value)) hsid "status" _]
    exact get_task_info_put_same _ "status" _
  · exact get_task_info_put_same _ "status" _

theorem stampStatus_get_other (X : STask) (hsid : noSlash X.sid) (ns : TState)
    (err : Option String) (sub : String)
    (d1 : ¬ pathSegs "status" <+: pathSegs sub) (d2 : ¬ pathSegs sub <+: pathSegs "status") :
    (X.stampStatus ns err).get_task_info sub = X.get_task_info sub := by
  unfold STask.stampStatus
  dsimp only
  split
  · rw [get_task_info_add_error (X.put_task_info "status" (.str ns.value)) hsid sub _]
    exact get_task_info_put_ne X hsid "status" sub _ d1 d2
  · exact get_task_info_put_ne X hsid "status" sub _ d1 d2

theorem stampStatus_errList (X : STask) (hsid : noSlash X.sid) (ns : TState)
    (err : Option String) :
    (X.stampStatus ns err).errList
      = if ns = .failed
        then X.errList ++ [match err with | some e => PyVal.str e | Option.none => PyVal.none]
        else X.errList := by
  unfold STask.stampStatus
  dsimp only
  by_cases hf : ns = .failed
  · rw [if_pos hf, if_pos hf,
      errList_add_error (X.put_task_info "status" (.str ns.value)) _
        (by cases err <;> intro vs <;> simp),
      errList_put_task_info X hsid "status" _]
  · rw [if_neg hf, if_neg hf, errList_put_task_info X hsid "status" _]

theorem stampStatus_outside (X : STask) (hsid : noSlash X.sid) (ns : TState)
    (err : Option String) (q : String)
    (h1 : ¬ pathSegs q <+: ["services", X.sid])
    (h2 : ¬ (["services", X.sid] : List String) <+: pathSegs q) :
    (X.stampStatus ns err).bb.getOpt q = X.bb.getOpt q := by
  unfold STask.stampStatus
  dsimp only
  split
  · rw [getOpt_outside_add_error (X.put_task_info "status" (.str ns.value)) hsid _ q h1 h2]
    exact getOpt_outside_put_task_info X hsid "status" _ q h1 h2
  · exact getOpt_outside_put_task_info X hsid "status" _ q h1 h2

theorem stampTimes_eq_started (X : STask) (now : Int) :
    STask.stampTimes X now .started = .ok (X.put_task_info "time/start" (.int now)) := by
  unfold STask.stampTimes
  rw [if_pos rfl]

theorem stampTimes_eq_terminal (X : STask) (now : Int) (ns : TState) (hns : ns ≠ .started)
    (s0 : Int) (hg : X.get_task_info "time/start" = some (.int s0)) :
    STask.stampTimes X now ns
      = .ok ((X.put_task_info "time/duration" (.int (now - s0))).put_task_info
          "time/end" (.int now)) := by
  unfold STask.stampTimes
  rw [if_neg hns, hg]

/-- C7 (amended): every transition writes the timestamped status record
under `services/<sid>/task_info/...` — on STARTED the start time, on a
terminal transition the end time and the duration computed from the
recorded start, and always the `status` field — while the accumulated
errors are appended to `services/<sid>/errors`: namespaced by the service
id, but beside `task_info`, not under it.  Nothing outside the
`services/<sid>` subtree is touched. -/
theorem C7_transition_writes (t : STask) (now : Int) (ns : TState) (err : Option String)
    (hsid : noSlash t.sid) :
    ∀ t', STask.transition t now ns err = .ok t' →
      t'.sid = t.sid
      ∧ t'.get_task_info "status" = some (.str ns.value)
      ∧ (ns = .started → t'.get_task_info "time/start" = some (.int now))
      ∧ (∀ s : Int, ns ≠ .started → t.get_task_info "time/start" = some (.int s) →
          t'.get_task_info "time/end" = some (.int now)
          ∧ t'.get_task_info "time/duration" = some (.int (now - s)))
      ∧ (∀ e, ns = .failed → err = some e → t'.errList = t.errList ++ [.str e])
      ∧ (∀ q, ¬ pathSegs q <+: ["services", t.sid]
          → ¬ (["services", t.sid] : List String) <+: pathSegs q →
          t'.bb.getOpt q = t.bb.getOpt q) := by
  intro t' h
  have hsidEq := (transition_fields h).2.2
  unfold STask.transition at h
  cases hst : STask.stampTimes { t with state := ns, error := err } now ns with
  | error e => rw [hst] at h; simp [Except.map] at h
  | ok t2 =>
      rw [hst] at h
      simp only [Except.map, Except.ok.injEq] at h
      have hsid2 : noSlash t2.sid := by
        rw [(stampTimes_fields hst).2.2]
        exact hsid
      have hq2 : ∀ q, ¬ pathSegs q <+: ["services", t.sid]
          → ¬ (["services", t.sid] : List String) <+: pathSegs q →
          t2.bb.getOpt q = t.bb.getOpt q := by
        intro q h1 h2
        by_cases hns : ns = .started
        · subst hns
          rw [stampTimes_eq_started _ now] at hst
          injection hst with hst
          subst hst
          exact getOpt_outside_put_task_info { t with state := .started, error := err }
            hsid "time/start" _ q h1 h2
        · have hgr : STask.get_task_info { t with state := ns, error := err } "time/start"
              = t.get_task_info "time/start" := rfl
          revert hst
          unfold STask.stampTimes
          rw [if_neg hns, hgr]
          cases hg : t.get_task_info "time/start" with
          | none => intro hst; simp at hst
          | some v =>
              cases v with
              | int s0 =>
                  intro hst
                  dsimp only at hst
                  injection hst with hst
                  subst hst
                  rw [getOpt_outside_put_task_info
                    (STask.put_task_info { t with state := ns, error := err }
                      "time/duration" (.int (now - s0))) hsid "time/end" _ q h1 h2]
                  exact getOpt_outside_put_task_info { t with state := ns, error := err }
                    hsid "time/duration" _ q h1 h2
              | none => intro hst; simp at hst
              | bool b => intro hst; simp at hst
              | str s => intro hst; simp at hst
              | list xs => intro hst; simp at hst
              | tuple xs => intro hst; simp at hst
              | dict kvs => intro hst; simp at hst
      have hErr2 : t2.errList = t.errList := by
        by_cases hns : ns = .started
        · subst hns
          rw [stampTimes_eq_started _ now] at hst
          injection hst with hst
          subst hst
          exact errList_put_task_info { t with state := .started, error := err }
            hsid "time/start" _
        · have hgr : STask.get_task_info { t with state := ns, error := err } "time/start"
              = t.get_task_info "time/start" := rfl
          revert hst
          unfold STask.stampTimes
          rw [if_neg hns, hgr]
          cases hg : t.get_task_info "time/start" with
          | none => intro hst; simp at hst
          | some v =>
              cases v with
              | int s0 =>
                  intro hst
                  dsimp only at hst
                  injection hst with hst
                  subst hst
                  rw [errList_put_task_info
                    (STask.put_task_info { t with state := ns, error := err }
                      "time/duration" (.int (now - s0))) hsid "time/end" _]
                  exact errList_put_task_info { t with state := ns, error := err }
                    hsid "time/duration" _
              | none => intro hst; simp at hst
              | bool b => intro hst; simp at hst
              | str s => intro hst; simp at hst
              | list xs => intro hst; simp at hst
              | tuple xs => intro hst; simp at hst
              | dict kvs => intro hst; simp at hst
      subst h
      refine ⟨hsidEq, ?_, ?_, ?_, ?_, ?_⟩
      · exact stampStatus_get_status t2 hsid2 ns err
      · intro hns
        subst hns
        rw [stampStatus_get_other t2 hsid2 _ err "time/start" (by decide) (by decide)]
        rw [stampTimes_eq_started _ now] at hst
        injection hst with hst
        subst hst
        exact get_task_info_put_same _ "time/start" _
      · intro s hns hgs
        rw [stampStatus_get_other t2 hsid2 _ err "time/end" (by decide) (by decide),
          stampStatus_get_other t2 hsid2 _ err "time/duration" (by decide) (by decide)]
        rw [stampTimes_eq_terminal { t with state := ns, error := err } now ns hns s hgs] at hst
        injection hst with hst
        subst hst
        constructor
        · exact get_task_info_put_same _ "time/end" _
        · rw [get_task_info_put_ne
            (STask.put_task_info { t with state := ns, error := err }
              "time/duration" (.int (now - s))) hsid "time/end" "time/duration" _
            (by decide) (by decide)]
          exact get_task_info_put_same _ "time/duration" _
      · intro e hf herr
        subst hf
        subst herr
        rw [stampStatus_errList t2 hsid2 .failed (some e), if_pos rfl, hErr2]
      · intro q h1 h2
        rw [stampStatus_outside t2 hsid2 ns err q (by rw [(stampTimes_fields hst).2.2]; exact h1)
          (by rw [(stampTimes_fields hst).2.2]; exact h2)]
        exact hq2 q h1 h2

/-- C7 counterexample: after the FAILED transition of a freshly constructed
task (service id `S`), the accumulated error sits at `services/S/errors`
and NOT under `services/S/task_info/...`: the complete task-info record is
the explicit dict below (shim/version/service, timestamps, status — no
errors entry), and `services/S/task_info/errors` is absent, refuting the
claim's placement of the accumulated errors under
`services/<serviceId>/task_info/...`. -/
theorem C7_errors_not_under_task_info :
    (STask.fail sampleTask 5 "boom").map
        (fun u => (u.bb.getOpt "services/S/task_info",
          u.bb.getOpt "services/S/task_info/errors",
          u.bb.getOpt "services/S/errors"))
      = .ok (some (.dict
          [("shim", .str "shim"), ("version", .str "1.0"), ("service", .str "S"),
           ("time", .dict [("start", .int 3), ("duration", .int 2), ("end", .int 5)]),
           ("status", .str "FAILED")]),
        Option.none,
        some (.list [.str "boom"])) := by rfl

/-- C7 witness: the amended statement at a concrete FAILED transition of a
fresh task: status stamped, error appended beside the task info. -/
theorem C7_transition_writes_witness :
    (STask.transition sampleTask 5 .failed (some "boom")).map
        (fun u => (u.get_task_info "status", u.errList))
      = .ok (some (.str "FAILED"), [PyVal.str "boom"]) := by
  obtain ⟨t', ht'⟩ := transition_ok (t := sampleTask) 5 .failed (some "boom") (Or.inr rfl)
  have h := C7_transition_writes sampleTask 5 .failed (some "boom")
    (by unfold noSlash; decide) t' ht'
  rw [ht']
  simp only [Except.map]
  rw [h.2.1, h.2.2.2.2.1 "boom" rfl rfl]
  rfl

theorem bbListAt_append_same (bb : Blackboard) (p : String) (v : PyVal)
    (hv : ∀ vs, v ≠ .list vs) :
    bbListAt (bb.append_to p v) p = bbListAt bb p ++ [v] := by
  unfold bbListAt
  rw [getOpt_append_same _ _ _ hv]
  rfl

theorem bbListAt_congr (bb1 bb2 : Blackboard) (p : String)
    (h : bb1.getOpt p = bb2.getOpt p) : bbListAt bb1 p = bbListAt bb2 p := by
  unfold bbListAt
  rw [h]

theorem log_keeps_hasStart (t : STask) (hsid : noSlash t.sid) (lg : String)
    (hlg : pathSegs lg = [lg]) (hne : lg ≠ "services") (v : PyVal) :
    ({ t with bb := t.bb.append_to lg v } : STask).hasStart = t.hasStart := by
  unfold STask.hasStart STask.get_task_info
  dsimp only
  rw [getOpt_append_ne]
  · rw [hlg, pathSegs_taskInfoPath _ hsid]
    simp [List.cons_prefix_cons, hne]
  · rw [hlg, pathSegs_taskInfoPath _ hsid]
    simp [List.cons_prefix_cons]

theorem log_keeps_errList (t : STask) (hsid : noSlash t.sid) (lg : String)
    (hlg : pathSegs lg = [lg]) (hne : lg ≠ "services") (v : PyVal) :
    ({ t with bb := t.bb.append_to lg v } : STask).errList = t.errList := by
  unfold STask.errList
  dsimp only
  refine bbListAt_congr _ _ _ ?_
  rw [getOpt_append_ne]
  · rw [hlg, pathSegs_errorsPath _ hsid]
    simp [List.cons_prefix_cons, hne]
  · rw [hlg, pathSegs_errorsPath _ hsid]
    simp [List.cons_prefix_cons]

theorem stampTimes_errList {X : STask} {now : Int} {ns : TState} {t2 : STask}
    (hsid : noSlash X.sid) (h : STask.stampTimes X now ns = .ok t2) :
    t2.errList = X.errList := by
  unfold STask.stampTimes at h
  split at h
  · injection h with h
    subst h
    exact errList_put_task_info X hsid _ _
  · split at h
    · rename_i start heq
      injection h with h
      subst h
      rw [errList_put_task_info (X.put_task_info "time/duration" (.int (now - start)))
        hsid "time/end" _]
      exact errList_put_task_info X hsid "time/duration" _
    · cases h

theorem stampTimes_outside {X : STask} {now : Int} {ns : TState} {t2 : STask}
    (hsid : noSlash X.sid) (h : STask.stampTimes X now ns = .ok t2) (q : String)
    (h1 : ¬ pathSegs q <+: ["services", X.sid])
    (h2 : ¬ (["services", X.sid] : List String) <+: pathSegs q) :
    t2.bb.getOpt q = X.bb.getOpt q := by
  unfold STask.stampTimes at h
  split at h
  · injection h with h
    subst h
    exact getOpt_outside_put_task_info X hsid _ _ q h1 h2
  · split at h
    · rename_i start heq
      injection h with h
      subst h
      rw [getOpt_outside_put_task_info (X.put_task_info "time/duration" (.int (now - start)))
        hsid "time/end" _ q h1 h2]
      exact getOpt_outside_put_task_info X hsid "time/duration" _ q h1 h2
    · cases h

theorem transition_errList {t : STask} {now : Int} {ns : TState} {err : Option String}
    {t' : STask} (hsid : noSlash t.sid) (h : STask.transition t now ns err = .ok t') :
    t'.errList = t.errList
      ++ (if ns = .failed
          then [match err with | some e => PyVal.str e | Option.none => PyVal.none]
          else []) := by
  unfold STask.transition at h
  cases hst : STask.stampTimes { t with state := ns, error := err } now ns with
  | error e => rw [hst] at h; simp [Except.map] at h
  | ok t2 =>
      rw [hst] at h
      simp only [Except.map, Except.ok.injEq] at h
      subst h
      have hsid2 : noSlash t2.sid := by
        rw [(stampTimes_fields hst).2.2]
        exact hsid
      rw [stampStatus_errList t2 hsid2 ns err,
        stampTimes_errList (X := { t with state := ns, error := err }) hsid hst]
      by_cases hf : ns = .failed
      · rw [if_pos hf, if_pos hf]
        rfl
      · rw [if_neg hf, if_neg hf, List.append_nil]
        rfl

theorem transition_outside {t : STask} {now : Int} {ns : TState} {err : Option String}
    {t' : STask} (hsid : noSlash t.sid) (h : STask.transition t now ns err = .ok t')
    (q : String)
    (h1 : ¬ pathSegs q <+: ["services", t.sid])
    (h2 : ¬ (["services", t.sid] : List String) <+: pathSegs q) :
    t'.bb.getOpt q = t.bb.getOpt q := by
  unfold STask.transition at h
  cases hst : STask.stampTimes { t with state := ns, error := err } now ns with
  | error e => rw [hst] at h; simp [Except.map] at h
  | ok t2 =>
      rw [hst] at h
      simp only [Except.map, Except.ok.injEq] at h
      subst h
      have hsid2 : noSlash t2.sid := by
        rw [(stampTimes_fields hst).2.2]
        exact hsid
      rw [stampStatus_outside t2 hsid2 ns err q
        (by rw [(stampTimes_fields hst).2.2]; exact h1)
        (by rw [(stampTimes_fields hst).2.2]; exact h2)]
      exact stampTimes_outside (X := { t with state := ns, error := err }) hsid hst q h1 h2

theorem collectLoop_probe (bad : List String) (now : Int) :
    ∀ (jobs : List (JobRec × PyVal)) (t : STask) (results : PyVal),
      noSlash t.sid → t.hasStart = true →
      ∃ tF resF,
        collectJobsLoop (cjProbe bad) (cuProbe []) now t results jobs = .ok (tF, resF)
        ∧ tF.sid = t.sid
        ∧ tF.hasStart = true
        ∧ tF.state = (if jobs.any (fun j =>
              j.1.state == JState.completed && decide (j.1.name ∈ bad)) = true then
              TState.failed else t.state)
        ∧ bbListAt tF.bb "cleanup_log"
            = bbListAt t.bb "cleanup_log" ++ jobs.map (fun j => PyVal.str j.1.name)
        ∧ bbListAt tF.bb "collect_log"
            = bbListAt t.bb "collect_log"
              ++ (jobs.filter (fun j => j.1.state == JState.completed)).map
                  (fun j => PyVal.str j.1.name)
        ∧ tF.errList = t.errList ++ jobs.flatMap (fun j =>
            if j.1.state == JState.completed then
              (if j.1.name ∈ bad then
                [PyVal.str ("failed to collect output for job '" ++ j.1.name ++ "': " ++ "boom")]
              else [])
            else if j.1.state == JState.failed then
              [PyVal.str (j.1.name ++ ": " ++ j.1.error)]
            else [])
        ∧ resF = jobs.foldl (fun r j =>
            if j.1.state == JState.completed && !(decide (j.1.name ∈ bad)) then
              bbPut r [j.1.name] (.str "ok")
            else r) results := by
  intro jobs
  induction jobs with
  | nil =>
      intro t results hsid hhs
      exact ⟨t, results, rfl, rfl, hhs, by simp, by simp, by simp, by simp, rfl⟩
  | cons j rest ih =>
      obtain ⟨job, ud⟩ := j
      intro t results hsid hhs
      -- the head step produces a task t1 and results1 with these facts:
      have hstep : ∃ t1 results1,
          (if job.state = .completed then
            match cjProbe bad t results job ud with
            | (t', results', Option.none) => Except.ok (t', results')
            | (t', results', some e) =>
                (t'.fail now ("failed to collect output for job '" ++ job.name
                  ++ "': " ++ e)).map (fun t'' => (t'', results'))
          else if job.state = .failed then
            Except.ok (t.add_error (.str (job.name ++ ": " ++ job.error)), results)
          else
            Except.ok (t, results)) = Except.ok (t1, results1)
          ∧ t1.sid = t.sid
          ∧ t1.hasStart = true
          ∧ t1.state = (if job.state == JState.completed && decide (job.name ∈ bad) then
              TState.failed else t.state)
          ∧ bbListAt t1.bb "cleanup_log" = bbListAt t.bb "cleanup_log"
          ∧ bbListAt t1.bb "collect_log"
              = bbListAt t.bb "collect_log"
                ++ (if job.state == JState.completed then [PyVal.str job.name] else [])
          ∧ t1.errList = t.errList
              ++ (if job.state == JState.completed then
                    (if job.name ∈ bad then
                      [PyVal.str ("failed to collect output for job '" ++ job.name
                        ++ "': " ++ "boom")]
                    else [])
                  else if job.state == JState.failed then
                    [PyVal.str (job.name ++ ": " ++ job.error)]
                  else [])
          ∧ results1 = (if job.state == JState.completed && !(decide (job.name ∈ bad)) then
              bbPut results [job.name] (.str "ok") else results) := by
        by_cases hjc : job.state = .completed
        · by_cases hjb : job.name ∈ bad
          · -- completed job whose collector raises: the loop fails the task
            have hhsL : ({ t with bb := t.bb.append_to "collect_log" (.str job.name) }
                : STask).hasStart = true := by
              rw [log_keeps_hasStart t hsid "collect_log" (by decide) (by decide)]
              exact hhs
            obtain ⟨t1, hfail⟩ := transition_ok
              (t := { t with bb := t.bb.append_to "collect_log" (.str job.name) })
              now .failed
              (some ("failed to collect output for job '" ++ job.name ++ "': " ++ "boom"))
              (Or.inr hhsL)
            refine ⟨t1, results, ?_, ?_, ?_, ?_, ?_, ?_, ?_, ?_⟩
            · rw [if_pos hjc]
              simp only [cjProbe]
              rw [if_pos hjb]
              dsimp only
              rw [show STask.fail { t with bb := t.bb.append_to "collect_log" (.str job.name) }
                  now ("failed to collect output for job '" ++ job.name ++ "': " ++ "boom")
                = .ok t1 from hfail]
              rfl
            · rw [(transition_fields hfail).2.2]
            · exact transition_keeps_hasStart
                (t := { t with bb := t.bb.append_to "collect_log" (.str job.name) })
                hsid hfail hhsL
            · rw [(transition_fields hfail).1]
              simp [hjc, hjb]
            · refine (bbListAt_congr _ _ _ ?_)
              rw [transition_outside
                (t := { t with bb := t.bb.append_to "collect_log" (.str job.name) })
                hsid hfail "cleanup_log"
                (by simp [pathSegs, splitSegsAux, List.cons_prefix_cons])
                (by simp [pathSegs, splitSegsAux, List.cons_prefix_cons])]
              exact getOpt_append_ne _ _ _ _ (by decide) (by decide)
            · rw [bbListAt_congr t1.bb _ "collect_log"
                (transition_outside
                  (t := { t with bb := t.bb.append_to "collect_log" (.str job.name) })
                  hsid hfail "collect_log"
                  (by simp [pathSegs, splitSegsAux, List.cons_prefix_cons])
                  (by simp [pathSegs, splitSegsAux, List.cons_prefix_cons])),
                bbListAt_append_same _ _ _ (by intro vs; simp)]
              simp [hjc]
            · rw [transition_errList
                (t := { t with bb := t.bb.append_to "collect_log" (.str job.name) })
                hsid hfail]
              rw [log_keeps_errList t hsid "collect_log" (by decide) (by decide)]
              simp [hjc, hjb]
            · simp [hjc, hjb]
          · -- completed job, collector succeeds
            refine ⟨{ t with bb := t.bb.append_to "collect_log" (.str job.name) },
              bbPut results [job.name] (.str "ok"), ?_, rfl, ?_, ?_, ?_, ?_, ?_, ?_⟩
            · rw [if_pos hjc]
              simp only [cjProbe]
              rw [if_neg hjb]
            · rw [log_keeps_hasStart t hsid "collect_log" (by decide) (by decide)]
              exact hhs
            · simp [hjc, hjb]
            · refine (bbListAt_congr _ _ _ ?_)
              exact getOpt_append_ne _ _ _ _ (by decide) (by decide)
            · rw [bbListAt_append_same _ _ _ (by intro vs; simp)]
              simp [hjc]
            · rw [log_keeps_errList t hsid "collect_log" (by decide) (by decide)]
              simp [hjc, hjb]
            · simp [hjc, hjb]
        · by_cases hjf : job.state = .failed
          · -- failed job: record its error
            refine ⟨t.add_error (.str (job.name ++ ": " ++ job.error)), results,
              ?_, rfl, ?_, ?_, ?_, ?_, ?_, ?_⟩
            · rw [if_neg hjc, if_pos hjf]
            · rw [hasStart_add_error t hsid _]
              exact hhs
            · simp [hjc, hjf, STask.add_error]
            · refine (bbListAt_congr _ _ _ ?_)
              exact getOpt_outside_add_error t hsid _ "cleanup_log"
                (by simp [pathSegs, splitSegsAux, List.cons_prefix_cons])
                (by simp [pathSegs, splitSegsAux, List.cons_prefix_cons])
            · rw [bbListAt_congr _ _ "collect_log"
                (getOpt_outside_add_error t hsid _ "collect_log"
                  (by simp [pathSegs, splitSegsAux, List.cons_prefix_cons])
                  (by simp [pathSegs, splitSegsAux, List.cons_prefix_cons]))]
              simp [hjc]
            · rw [errList_add_error t _ (by intro vs; simp)]
              simp [hjc, hjf]
            · simp [hjc, hjf]
          · -- pending or running job: nothing happens
            refine ⟨t, results, ?_, rfl, hhs, ?_, rfl, ?_, ?_, ?_⟩
            · rw [if_neg hjc, if_neg hjf]
            · simp [hjc, hjf]
            · simp [hjc]
            · simp [hjc, hjf]
            · simp [hjc]
      obtain ⟨t1, results1, heq, hS1, hH1, hSt1, hCl1, hCo1, hE1, hR1⟩ := hstep
      have hsid1 : noSlash t1.sid := by rw [hS1]; exact hsid
      have hsid2 : noSlash ({ t1 with bb := t1.bb.append_to "cleanup_log" (.str job.name) }
          : STask).sid := hsid1
      have hH2 : ({ t1 with bb := t1.bb.append_to "cleanup_log" (.str job.name) }
          : STask).hasStart = true := by
        rw [log_keeps_hasStart t1 hsid1 "cleanup_log" (by decide) (by decide)]
        exact hH1
      obtain ⟨tF, resF, hloop, hSF, hHF, hStF, hClF, hCoF, hEF, hRF⟩ :=
        ih { t1 with bb := t1.bb.append_to "cleanup_log" (.str job.name) } results1 hsid2 hH2
      refine ⟨tF, resF, ?_, ?_, hHF, ?_, ?_, ?_, ?_, ?_⟩
      · unfold collectJobsLoop
        rw [heq]
        simp only [Except.bind, cuProbe]
        simp only [List.not_mem_nil, if_false]
        exact hloop
      · rw [hSF]
        exact hS1
      · rw [hStF]
        by_cases hhead : (job.state == JState.completed && decide (job.name ∈ bad)) = true
        · simp only [List.any_cons, hhead, Bool.true_or, if_pos rfl]
          have hTf : t1.state = TState.failed := by
            rw [hSt1, if_pos hhead]
          by_cases hr : (rest.any fun j =>
              j.1.state == JState.completed && decide (j.1.name ∈ bad)) = true
          · rw [if_pos hr]
            simp
          · rw [if_neg hr]
            simp only [if_pos trivial]
            exact hTf
        · have hf : (job.state == JState.completed && decide (job.name ∈ bad)) = false := by
            simpa using hhead
          have hstate2 : ({ t1 with bb := t1.bb.append_to "cleanup_log" (.str job.name) }
              : STask).state = t.state := by
            show t1.state = t.state
            rw [hSt1, if_neg hhead]
          rw [hstate2]
          simp only [List.any_cons, hf, Bool.false_or]
      · rw [hClF]
        have hstepCl : bbListAt
            ({ t1 with bb := t1.bb.append_to "cleanup_log" (.str job.name) } : STask).bb
            "cleanup_log"
            = bbListAt t.bb "cleanup_log" ++ [PyVal.str job.name] := by
          show bbListAt (t1.bb.append_to "cleanup_log" (.str job.name)) "cleanup_log" = _
          rw [bbListAt_append_same _ _ _ (by intro vs; simp), hCl1]
        rw [hstepCl]
        simp [List.append_assoc]
      · rw [hCoF]
        have hstepCo : bbListAt
            ({ t1 with bb := t1.bb.append_to "cleanup_log" (.str job.name) } : STask).bb
            "collect_log"
            = bbListAt t.bb "collect_log"
              ++ (if job.state == JState.completed then [PyVal.str job.name] else []) := by
          show bbListAt (t1.bb.append_to "cleanup_log" (.str job.name)) "collect_log" = _
          rw [bbListAt_congr _ _ _ (getOpt_append_ne _ _ _ _ (by decide) (by decide)), hCo1]
        rw [hstepCo]
        by_cases hjc2 : (job.state == JState.completed) = true
        · simp [List.filter_cons, hjc2, List.append_assoc]
        · simp [List.filter_cons, hjc2]
      · rw [hEF]
        have hstepE : ({ t1 with bb := t1.bb.append_to "cleanup_log" (.str job.name) }
            : STask).errList = t.errList
              ++ (if job.state == JState.completed then
                    (if job.name ∈ bad then
                      [PyVal.str ("failed to collect output for job '" ++ job.name
                        ++ "': " ++ "boom")]
                    else [])
                  else if job.state == JState.failed then
                    [PyVal.str (job.name ++ ": " ++ job.error)]
                  else []) := by
          rw [log_keeps_errList t1 hsid1 "cleanup_log" (by decide) (by decide), hE1]
        rw [hstepE]
        simp only [List.flatMap_cons]
        simp [List.append_assoc]
      · rw [hRF, hR1]
        simp [List.foldl_cons]

theorem flatMap_ext {α β : Type} (f g : α → List β) (h : ∀ a, f a = g a) :
    ∀ l : List α, l.flatMap f = l.flatMap g := by
  intro l
  induction l with
  | nil => rfl
  | cons a tl ih => simp only [List.flatMap_cons, h a, ih]

theorem foldl_ext {α β : Type} (f g : β → α → β) (h : ∀ b a, f b a = g b a) :
    ∀ (l : List α) (init : β), l.foldl f init = l.foldl g init := by
  intro l
  induction l with
  | nil => intro init; rfl
  | cons a tl ih => intro init; simp only [List.foldl_cons, h init a, ih]

theorem results_put_task_info (t : STask) (hsid : noSlash t.sid) (sub : String) (v : PyVal) :
    (t.put_task_info sub v).bb.getOpt (resultsPath t.sid) = t.bb.getOpt (resultsPath t.sid) := by
  unfold STask.put_task_info
  dsimp only
  rw [getOpt_put_ne] <;>
    rw [pathSegs_taskInfoPath _ hsid, pathSegs_resultsPath _ hsid] <;>
    simp [List.cons_prefix_cons]

theorem results_add_error (t : STask) (hsid : noSlash t.sid) (v : PyVal) :
    (t.add_error v).bb.getOpt (resultsPath t.sid) = t.bb.getOpt (resultsPath t.sid) := by
  unfold STask.add_error
  dsimp only
  rw [getOpt_append_ne] <;>
    rw [pathSegs_errorsPath _ hsid, pathSegs_resultsPath _ hsid] <;>
    simp [List.cons_prefix_cons]

theorem results_stampStatus (X : STask) (hsid : noSlash X.sid) (ns : TState)
    (err : Option String) :
    (X.stampStatus ns err).bb.getOpt (resultsPath X.sid) = X.bb.getOpt (resultsPath X.sid) := by
  unfold STask.stampStatus
  dsimp only
  split
  · exact (results_add_error (X.put_task_info "status" (.str ns.value)) hsid _).trans
      (results_put_task_info X hsid "status" _)
  · exact results_put_task_info X hsid "status" _

theorem results_stampTimes {X : STask} {now : Int} {ns : TState} {t2 : STask}
    (hsid : noSlash X.sid) (h : STask.stampTimes X now ns = .ok t2) :
    t2.bb.getOpt (resultsPath X.sid) = X.bb.getOpt (resultsPath X.sid) := by
  unfold STask.stampTimes at h
  split at h
  · injection h with h
    subst h
    exact results_put_task_info X hsid _ _
  · split at h
    · rename_i start heq
      injection h with h
      subst h
      exact (results_put_task_info (X.put_task_info "time/duration" (.int (now - start)))
        hsid "time/end" _).trans (results_put_task_info X hsid "time/duration" _)
    · cases h

theorem results_transition {t : STask} {now : Int} {ns : TState} {err : Option String}
    {t' : STask} (hsid : noSlash t.sid) (h : STask.transition t now ns err = .ok t') :
    t'.bb.getOpt (resultsPath t.sid) = t.bb.getOpt (resultsPath t.sid) := by
  unfold STask.transition at h
  cases hst : STask.stampTimes { t with state := ns, error := err } now ns with
  | error e => rw [hst] at h; simp [Except.map] at h
  | ok t2 =>
      rw [hst] at h
      simp only [Except.map, Except.ok.injEq] at h
      subst h
      have hsid2 : noSlash t2.sid := by
        rw [(stampTimes_fields hst).2.2]
        exact hsid
      have h1 := results_stampStatus t2 hsid2 ns err
      rw [(stampTimes_fields hst).2.2] at h1
      rw [h1]
      exact results_stampTimes (X := { t with state := ns, error := err }) hsid hst

/-- C1 (amended): for a STARTED multi-job task whose jobs are all terminal,
`report()` with a per-job collector that raises no exception ends the task
COMPLETED when at least one job completed and FAILED exactly when no job
completed; each FAILED job's error is recorded on the service error list
(with `no successful jobs` appended in the all-failed case), and the stored
results dict has an entry exactly for each COMPLETED job.  (The original
claim's `FAILED only if all jobs failed` holds only under the no-collector-
exception proviso; see the counterexample.) -/
theorem C1_multi_aggregation (t : STask) (jobs : List (JobRec × PyVal)) (now : Int)
    (hsid : noSlash t.sid) (hst : t.state = .started) (hhs : t.hasStart = true)
    (hterm : jobs.all (fun j =>
      j.1.state == JState.completed || j.1.state == JState.failed) = true) :
    ∃ tF resF,
      MultiJobExecution.report (cjProbe []) (cuProbe []) t jobs now = .ok tF
      ∧ tF.state = (if jobs.any (fun j => j.1.state == JState.completed) = true
          then TState.completed else TState.failed)
      ∧ tF.errList = t.errList
          ++ jobs.flatMap (fun j => if j.1.state == JState.failed
              then [PyVal.str (j.1.name ++ ": " ++ j.1.error)] else [])
          ++ (if jobs.any (fun j => j.1.state == JState.completed) = true then []
              else [PyVal.str "no successful jobs"])
      ∧ tF.bb.getOpt (resultsPath t.sid) = some resF
      ∧ resF = jobs.foldl (fun r j => if j.1.state == JState.completed
            then bbPut r [j.1.name] (.str "ok") else r) (.dict []) := by
  obtain ⟨t1, resF, hloop, hS1, hH1, hSt1, hCl1, hCo1, hE1, hR1⟩ :=
    collectLoop_probe [] now jobs t (.dict []) hsid hhs
  have hsid1 : noSlash t1.sid := by rw [hS1]; exact hsid
  have hcondF : (jobs.any fun j =>
      j.1.state == JState.completed && decide (j.1.name ∈ ([] : List String))) = false := by
    simp
  have hSt1' : t1.state = t.state := by
    rw [hSt1, hcondF]
    simp
  have hE1' : t1.errList = t.errList ++ jobs.flatMap (fun j =>
      if j.1.state == JState.failed then [PyVal.str (j.1.name ++ ": " ++ j.1.error)]
      else []) := by
    rw [hE1]
    congr 1
    refine flatMap_ext _ _ ?_ jobs
    intro j
    by_cases hc : (j.1.state == JState.completed) = true
    · have hc' : j.1.state = JState.completed := by simpa using hc
      simp [hc, hc']
    · simp [hc]
  have hR1' : resF = jobs.foldl (fun r j => if j.1.state == JState.completed
      then bbPut r [j.1.name] (.str "ok") else r) (.dict []) := by
    rw [hR1]
    refine foldl_ext _ _ ?_ jobs (PyVal.dict [])
    intro r j
    simp
  have hne : (t1.store_results resF).state ≠ TState.failed := by
    rw [store_results_state, hSt1', hst]
    decide
  have hh2 : (t1.store_results resF).hasStart = true := by
    rw [hasStart_store_results t1 hsid1 resF]
    exact hH1
  have hsid2 : noSlash (t1.store_results resF).sid := by
    rw [store_results_sid]
    exact hsid1
  by_cases hany : (jobs.any fun j => j.1.state == JState.completed) = true
  · obtain ⟨tF, htr⟩ := transition_ok (t := t1.store_results resF) now .completed Option.none
      (Or.inr hh2)
    refine ⟨tF, resF, ?_, ?_, ?_, ?_, hR1'⟩
    · unfold MultiJobExecution.report
      rw [if_pos hst, if_pos hterm]
      rw [show MultiJobExecution.collect_results (cjProbe []) (cuProbe []) now t jobs
          = .ok (t1, resF) from hloop]
      simp only [Bind.bind, Except.bind]
      rw [if_pos hne, if_pos hany]
      exact htr
    · rw [(transition_fields htr).1, if_pos hany]
    · rw [transition_errList hsid2 htr, errList_store_results t1 hsid1 resF, hE1', if_pos hany]
      simp
    · have hres := results_transition hsid2 htr
      rw [store_results_sid, hS1] at hres
      rw [hres]
      show (t1.bb.put (resultsPath t1.sid) resF).getOpt (resultsPath t.sid) = some resF
      rw [hS1]
      exact getOpt_put_same _ _ _
  · obtain ⟨tF, htr⟩ := transition_ok (t := t1.store_results resF) now .failed
      (some "no successful jobs") (Or.inr hh2)
    refine ⟨tF, resF, ?_, ?_, ?_, ?_, hR1'⟩
    · unfold MultiJobExecution.report
      rw [if_pos hst, if_pos hterm]
      rw [show MultiJobExecution.collect_results (cjProbe []) (cuProbe []) now t jobs
          = .ok (t1, resF) from hloop]
      simp only [Bind.bind, Except.bind]
      rw [if_pos hne, if_neg hany]
      exact htr
    · rw [(transition_fields htr).1, if_neg hany]
    · rw [transition_errList hsid2 htr, errList_store_results t1 hsid1 resF, hE1', if_neg hany]
      simp [List.append_assoc]
    · have hres := results_transition hsid2 htr
      rw [store_results_sid, hS1] at hres
      rw [hres]
      show (t1.bb.put (resultsPath t1.sid) resF).getOpt (resultsPath t.sid) = some resF
      rw [hS1]
      exact getOpt_put_same _ _ _

/-- C1 counterexample: with a collector that raises on job `a`, a job list
where `a` COMPLETED and `b` FAILED — so not all jobs failed — still ends the
task FAILED, refuting `COMPLETED if at least one job completed` and `FAILED
only if all jobs failed`. -/
theorem C1_fail_despite_completed :
    (MultiJobExecution.report (cjProbe ["a"]) (cuProbe []) sampleTask
        [(⟨"a", JState.completed, ""⟩, .none), (⟨"b", JState.failed, "oops"⟩, .none)] 9).map
        (fun u => u.state)
      = .ok TState.failed
    ∧ (([(⟨"a", JState.completed, ""⟩, .none), (⟨"b", JState.failed, "oops"⟩, .none)]
          : List (JobRec × PyVal)).all (fun j => j.1.state == JState.failed)) = false :=
  ⟨rfl, rfl⟩

/-- C1 witness: the spec's `[COMPLETED, FAILED, COMPLETED]` scenario — the
task ends COMPLETED, records exactly the one failed job's error, and the
results dict holds entries for the two completed jobs only. -/
theorem C1_multi_aggregation_witness :
    noSlash sampleTask.sid
    ∧ sampleTask.state = TState.started
    ∧ sampleTask.hasStart = true
    ∧ (∃ tF resF,
        MultiJobExecution.report (cjProbe []) (cuProbe []) sampleTask
            [(⟨"a", JState.completed, ""⟩, .none), (⟨"b", JState.failed, "err1"⟩, .none),
             (⟨"c", JState.completed, ""⟩, .none)] 9 = .ok tF
        ∧ tF.state = TState.completed
        ∧ tF.errList = [PyVal.str "b: err1"]
        ∧ tF.bb.getOpt (resultsPath "S") = some resF
        ∧ resF = PyVal.dict [("a", PyVal.str "ok"), ("c", PyVal.str "ok")]) :=
  ⟨by unfold noSlash; decide, rfl, by decide,
   C1_multi_aggregation sampleTask
     [(⟨"a", JState.completed, ""⟩, .none), (⟨"b", JState.failed, "err1"⟩, .none),
      (⟨"c", JState.completed, ""⟩, .none)] 9
     (by unfold noSlash; decide) rfl (by decide) (by decide)⟩

/-- C4 (amended): when the collector raises on one COMPLETED job, the
exception is caught and recorded as an error attributed to that job, the
remaining jobs are still processed (the collector still runs for every
other COMPLETED job and cleanup for every job) — but, contrary to the
original claim, the caught exception does decide the task's terminal state:
`self.fail` marks the task FAILED inside `collect_results`, and `report()`
then skips the aggregation step, so the task ends FAILED even when sibling
jobs completed. -/
theorem C4_collector_exception (b : String) (t : STask) (jobs : List (JobRec × PyVal))
    (now : Int)
    (hsid : noSlash t.sid) (hst : t.state = .started) (hhs : t.hasStart = true)
    (hterm : jobs.all (fun j =>
      j.1.state == JState.completed || j.1.state == JState.failed) = true)
    (hbad : ∃ j ∈ jobs, j.1.state = JState.completed ∧ j.1.name = b) :
    ∃ tF,
      MultiJobExecution.report (cjProbe [b]) (cuProbe []) t jobs now = .ok tF
      ∧ tF.state = TState.failed
      ∧ tF.errList = t.errList ++ jobs.flatMap (fun j =>
            if j.1.state == JState.completed then
              (if j.1.name = b then
                [PyVal.str ("failed to collect output for job '" ++ j.1.name ++ "': "
                  ++ "boom")]
              else [])
            else if j.1.state == JState.failed then
              [PyVal.str (j.1.name ++ ": " ++ j.1.error)]
            else [])
      ∧ bbListAt tF.bb "collect_log" = bbListAt t.bb "collect_log"
          ++ (jobs.filter (fun j => j.1.state == JState.completed)).map
              (fun j => PyVal.str j.1.name)
      ∧ bbListAt tF.bb "cleanup_log" = bbListAt t.bb "cleanup_log"
          ++ jobs.map (fun j => PyVal.str j.1.name) := by
  obtain ⟨t1, resF, hloop, hS1, hH1, hSt1, hCl1, hCo1, hE1, hR1⟩ :=
    collectLoop_probe [b] now jobs t (.dict []) hsid hhs
  have hsid1 : noSlash t1.sid := by rw [hS1]; exact hsid
  obtain ⟨jw, hjmem, hjc, hjn⟩ := hbad
  have hc : (jobs.any fun j =>
      j.1.state == JState.completed && decide (j.1.name ∈ ([b] : List String))) = true := by
    refine List.any_eq_true.mpr ⟨jw, hjmem, ?_⟩
    simp [hjc, hjn]
  have hSt1' : t1.state = TState.failed := by
    rw [hSt1, hc]
    simp
  have h2f : (t1.store_results resF).state = TState.failed := by
    rw [store_results_state]
    exact hSt1'
  refine ⟨t1.store_results resF, ?_, h2f, ?_, ?_, ?_⟩
  · unfold MultiJobExecution.report
    rw [if_pos hst, if_pos hterm]
    rw [show MultiJobExecution.collect_results (cjProbe [b]) (cuProbe []) now t jobs
        = .ok (t1, resF) from hloop]
    simp only [Bind.bind, Except.bind]
    rw [if_neg (not_not_intro h2f)]
  · rw [errList_store_results t1 hsid1 resF, hE1]
    congr 1
    refine flatMap_ext _ _ ?_ jobs
    intro j
    simp [List.mem_singleton]
  · rw [bbListAt_congr _ _ _ (getOpt_outside_store_results t1 hsid1 resF "collect_log"
      (by simp [pathSegs, splitSegsAux, List.cons_prefix_cons])
      (by simp [pathSegs, splitSegsAux, List.cons_prefix_cons]))]
    exact hCo1
  · rw [bbListAt_congr _ _ _ (getOpt_outside_store_results t1 hsid1 resF "cleanup_log"
      (by simp [pathSegs, splitSegsAux, List.cons_prefix_cons])
      (by simp [pathSegs, splitSegsAux, List.cons_prefix_cons]))]
    exact hCl1

/-- C4 counterexample: two COMPLETED jobs, the collector raises on `p` — the
task ends FAILED with the per-job error recorded, so the caught exception by
itself decided the task's overall terminal state. -/
theorem C4_exception_decides_state :
    (MultiJobExecution.report (cjProbe ["p"]) (cuProbe []) sampleTask
        [(⟨"p", JState.completed, ""⟩, .none), (⟨"q", JState.completed, ""⟩, .none)] 9).map
        (fun u => (u.state, u.errList))
      = .ok (TState.failed, [PyVal.str "failed to collect output for job 'p': boom"]) :=
  rfl

/-- C4 witness: the collector raises on completed job `x`; the failed job
`y`'s error and `x`'s collection error are both recorded, the collector
still ran for the later completed job `z`, cleanup ran for all three jobs,
and the task ended FAILED. -/
theorem C4_collector_exception_witness :
    noSlash sampleTask.sid
    ∧ (∃ tF,
        MultiJobExecution.report (cjProbe ["x"]) (cuProbe []) sampleTask
            [(⟨"x", JState.completed, ""⟩, .none), (⟨"y", JState.failed, "e"⟩, .none),
             (⟨"z", JState.completed, ""⟩, .none)] 9 = .ok tF
        ∧ tF.state = TState.failed
        ∧ tF.errList = [PyVal.str "failed to collect output for job 'x': boom",
            PyVal.str "y: e"]
        ∧ bbListAt tF.bb "collect_log" = [PyVal.str "x", PyVal.str "z"]
        ∧ bbListAt tF.bb "cleanup_log" = [PyVal.str "x", PyVal.str "y", PyVal.str "z"]) :=
  ⟨by unfold noSlash; decide,
   C4_collector_exception "x" sampleTask
     [(⟨"x", JState.completed, ""⟩, .none), (⟨"y", JState.failed, "e"⟩, .none),
      (⟨"z", JState.completed, ""⟩, .none)] 9
     (by unfold noSlash; decide) rfl (by decide) (by decide)
     ⟨(⟨"x", JState.completed, ""⟩, .none), by simp, rfl, rfl⟩⟩

/-- C5 (amended): `cleanup_job` is invoked exactly once for every job, in
job order, regardless of whether the job completed or failed and regardless
of collector exceptions — provided no cleanup invocation itself raises.
Contrary to the original claim, an exception inside `cleanup_job` is not
caught: `cleanup_job` is called outside the `try`, so the exception
propagates out of `collect_results`, aborting the processing of the
remaining jobs. -/
theorem C5_cleanup_each_job (bad : List String) (t : STask) (jobs : List (JobRec × PyVal))
    (now : Int) (hsid : noSlash t.sid) (hhs : t.hasStart = true) :
    (∃ tF resF,
      MultiJobExecution.collect_results (cjProbe bad) (cuProbe []) now t jobs
        = .ok (tF, resF)
      ∧ bbListAt tF.bb "cleanup_log"
          = bbListAt t.bb "cleanup_log" ++ jobs.map (fun j => PyVal.str j.1.name))
    ∧ (∀ (cubad : List String) (u : STask) (job : JobRec) (ud : PyVal)
        (rest : List (JobRec × PyVal)),
        job.state = JState.failed → job.name ∈ cubad →
        MultiJobExecution.collect_results (cjProbe bad) (cuProbe cubad) now u
            ((job, ud) :: rest)
          = .error "cleanup boom") := by
  constructor
  · obtain ⟨tF, resF, hloop, _, _, _, hCl, _, _, _⟩ :=
      collectLoop_probe bad now jobs t (.dict []) hsid hhs
    exact ⟨tF, resF, hloop, hCl⟩
  · intro cubad u job ud rest hjf hmem
    unfold MultiJobExecution.collect_results collectJobsLoop
    rw [if_neg (by simp [hjf]), if_pos hjf]
    simp only [Except.bind, cuProbe]
    rw [if_pos hmem]

/-- C5 counterexample: a cleanup exception on job `a` escapes `report()`
entirely — the call returns the raised exception instead of a task state,
so the failure escalated and job `b` was never processed. -/
theorem C5_cleanup_exception_escalates :
    MultiJobExecution.report (cjProbe []) (cuProbe ["a"]) sampleTask
        [(⟨"a", JState.completed, ""⟩, .none), (⟨"b", JState.completed, ""⟩, .none)] 9
      = .error "cleanup boom" :=
  rfl

/-- C5 witness: cleanup runs once for the completed job `a` and once for the
failed job `b`, in order; and with a raising cleanup on job `w` the
collection aborts with the exception. -/
theorem C5_cleanup_each_job_witness :
    noSlash sampleTask.sid
    ∧ (∃ tF resF,
        MultiJobExecution.collect_results (cjProbe []) (cuProbe []) 11 sampleTask
            [(⟨"a", JState.completed, ""⟩, .none), (⟨"b", JState.failed, "oops"⟩, .none)]
          = .ok (tF, resF)
        ∧ bbListAt tF.bb "cleanup_log" = [PyVal.str "a", PyVal.str "b"])
    ∧ MultiJobExecution.collect_results (cjProbe []) (cuProbe ["w"]) 11 sampleTask
        [(⟨"w", JState.failed, "e"⟩, .none)]
      = .error "cleanup boom" :=
  ⟨by unfold noSlash; decide,
   (C5_cleanup_each_job [] sampleTask
     [(⟨"a", JState.completed, ""⟩, .none), (⟨"b", JState.failed, "oops"⟩, .none)] 11
     (by unfold noSlash; decide) (by decide)).1,
   (C5_cleanup_each_job [] sampleTask
     [(⟨"a", JState.completed, ""⟩, .none), (⟨"b", JState.failed, "oops"⟩, .none)] 11
     (by unfold noSlash; decide) (by decide)).2 ["w"] sampleTask
     ⟨"w", JState.failed, "e"⟩ .none [] rfl (by simp)⟩
